import Mathlib

/-!
Verification of the chunked spend-classification engine.

Shallow embedding of the classification code:
* `hierarchy_validator.py` — `HierarchyLookup` and the reconciliation cascade
  (`validate_and_correct` and its helper steps);
* `hybrid_classifier.py` — `find_ambiguity_level`, `classify_hybrid`;
* `taxonomy_engine.py` — `match_n4_without_priority`;
* `ml_classifier.py` — the result-building part of `predict`;
* `core_classification.py` — `process_dataframe_chunk` (chunk processor) and
  `_best_hierarchy_match`.

Modelling conventions:
* Python `str` is Lean `String`; `str.lower` / `str.strip` are modelled on the
  ASCII fragment (`pyLower`, `pyStrip`); Unicode accent folding
  (`unicodedata` NFD/NFKD) is kept as an explicit function parameter where the
  source uses it, since full Unicode normalization has no shallow embedding.
* `difflib.get_close_matches` computes real-valued similarity ratios
  (floating point); it is modelled as an explicit function parameter
  `fuzzy : String → List String → Option String` (the per-call memoisation
  caches in the source are semantics-preserving for a deterministic matcher
  and are dropped).
* Python `set`s are modelled as lists with first-insertion order and no
  duplicates (`addSet`); CPython's set iteration order is unspecified, the
  model fixes one.  `dict`s are modelled as update functions or association
  lists, later writes winning.
* Confidence scores (Python floats in [0,1]) are modelled as rationals;
  the threshold comparisons involved are exact in both representations.
-/

namespace Spend

/-! ### Python string primitives (ASCII fragment) -/

/-- Python whitespace stripped by `str.strip()` (ASCII fragment). -/
def isPyWS (c : Char) : Bool := c.toNat ∈ [9, 10, 11, 12, 13, 32]

/-- Lowering of one character (`str.lower`).  Lean's `Char.toLower` is exactly the
ASCII lowering `A`–`Z` ↦ `a`–`z`, which agrees with Python on ASCII. -/
def lowerChar (c : Char) : Char := Char.toLower c

/-- Model of Python `str.lower()` (ASCII fragment). -/
def pyLower (s : String) : String := ⟨s.data.map lowerChar⟩

/-- Strip leading and trailing Python whitespace from a character list. -/
def pyStripList (l : List Char) : List Char :=
  ((l.dropWhile isPyWS).reverse.dropWhile isPyWS).reverse

/-- Model of Python `str.strip()` (ASCII whitespace fragment). -/
def pyStrip (s : String) : String := ⟨pyStripList s.data⟩

/-- Model of Python `pat in hay` (substring containment). -/
def pyIn (pat hay : String) : Bool := decide (pat.data <:+: hay.data)

theorem toNat_ofNat_of_lt {n : ℕ} (h : n < 55296) : (Char.ofNat n).toNat = n := by
  simp only [Char.ofNat, Nat.isValidChar]
  rw [dif_pos (Or.inl h)]
  rfl

theorem lowerChar_toNat (c : Char) :
    (lowerChar c).toNat = if 65 ≤ c.toNat ∧ c.toNat ≤ 90 then c.toNat + 32 else c.toNat := by
  unfold lowerChar Char.toLower
  split
  · rename_i h
    rw [if_pos (by omega)]
    exact toNat_ofNat_of_lt (by omega)
  · rename_i h
    rw [if_neg (by omega)]

theorem lowerChar_idem (c : Char) : lowerChar (lowerChar c) = lowerChar c := by
  have h1 := lowerChar_toNat c
  have h2 := lowerChar_toNat (lowerChar c)
  have key : (lowerChar (lowerChar c)).toNat = (lowerChar c).toNat := by
    rw [h2, h1]
    split_ifs <;> omega
  exact Char.ext (by simpa [UInt32.ext_iff] using key)

theorem isPyWS_lowerChar (c : Char) : isPyWS (lowerChar c) = isPyWS c := by
  unfold isPyWS
  rw [lowerChar_toNat c]
  split_ifs with hc
  · have h1 : ¬ (c.toNat + 32) ∈ [9, 10, 11, 12, 13, 32] := by
      simp only [List.mem_cons, List.not_mem_nil, or_false]
      omega
    have h2 : ¬ c.toNat ∈ [9, 10, 11, 12, 13, 32] := by
      simp only [List.mem_cons, List.not_mem_nil, or_false]
      omega
    simp [h1, h2]
  · rfl

theorem pyLower_idem (s : String) : pyLower (pyLower s) = pyLower s := by
  unfold pyLower
  simp [List.map_map, Function.comp_def, lowerChar_idem]

theorem pyLower_empty_iff (s : String) : pyLower s = "" ↔ s = "" := by
  unfold pyLower
  constructor
  · intro h
    have : s.data.map lowerChar = [] := congrArg String.data h
    rcases s with ⟨d⟩
    simp only [List.map_eq_nil_iff] at this
    simp [this]
  · intro h; rw [h]; rfl

theorem dropWhile_head_not {p : α → Bool} {l : List α} {x : α}
    (h : (l.dropWhile p).head? = some x) : p x = false := by
  have := List.head?_dropWhile_not p l
  rw [h] at this
  exact this

theorem dropWhile_eq_self_of_head {p : α → Bool} {l : List α}
    (h : ∀ x, l.head? = some x → p x = false) : l.dropWhile p = l := by
  cases l with
  | nil => rfl
  | cons a l => simp [List.dropWhile_cons, h a rfl]

theorem getLast?_of_suffix {s l : List α} (h : s <:+ l) (hne : s ≠ []) :
    s.getLast? = l.getLast? := by
  obtain ⟨t, rfl⟩ := h
  rw [List.getLast?_append]
  cases hs : s.getLast? with
  | none => exact absurd (List.getLast?_eq_none_iff.mp hs) hne
  | some x => rfl

theorem pyStripList_head {l : List Char} {x : Char}
    (h : (pyStripList l).head? = some x) : isPyWS x = false := by
  unfold pyStripList at h
  rw [List.head?_reverse] at h
  -- x is the last element of `dropWhile isPyWS (reverse (dropWhile isPyWS l))`,
  -- a nonempty suffix of `reverse (dropWhile isPyWS l)`, whose last element is
  -- the head of `dropWhile isPyWS l`.
  set a := l.dropWhile isPyWS
  have hsfx : a.reverse.dropWhile isPyWS <:+ a.reverse := List.dropWhile_suffix _
  have hne : a.reverse.dropWhile isPyWS ≠ [] := by
    intro hcon
    rw [hcon] at h
    exact Option.noConfusion h
  have hlast := getLast?_of_suffix hsfx hne
  rw [h] at hlast
  have : a.reverse.getLast? = some x := hlast.symm
  rw [List.getLast?_reverse] at this
  exact dropWhile_head_not this

theorem pyStripList_getLast {l : List Char} {x : Char}
    (h : (pyStripList l).getLast? = some x) : isPyWS x = false := by
  unfold pyStripList at h
  rw [List.getLast?_reverse] at h
  exact dropWhile_head_not h

theorem pyStripList_idem (l : List Char) : pyStripList (pyStripList l) = pyStripList l := by
  have h1 : (pyStripList l).dropWhile isPyWS = pyStripList l :=
    dropWhile_eq_self_of_head fun x hx => pyStripList_head hx
  show ((((pyStripList l).dropWhile isPyWS).reverse.dropWhile isPyWS)).reverse = pyStripList l
  rw [h1]
  have h2 : (pyStripList l).reverse.dropWhile isPyWS = (pyStripList l).reverse := by
    refine dropWhile_eq_self_of_head fun x hx => ?_
    rw [List.head?_reverse] at hx
    exact pyStripList_getLast hx
  rw [h2, List.reverse_reverse]

theorem pyStrip_idem (s : String) : pyStrip (pyStrip s) = pyStrip s := by
  unfold pyStrip
  simp [pyStripList_idem]

theorem pyStripList_map_lower (l : List Char) :
    pyStripList (l.map lowerChar) = (pyStripList l).map lowerChar := by
  unfold pyStripList
  have hws : (isPyWS ∘ lowerChar) = isPyWS := funext fun c => isPyWS_lowerChar c
  rw [List.dropWhile_map, hws, ← List.map_reverse, List.dropWhile_map, hws, List.map_reverse]

theorem pyStrip_pyLower (s : String) : pyStrip (pyLower s) = pyLower (pyStrip s) := by
  unfold pyStrip pyLower
  simp [pyStripList_map_lower]

end Spend

/-! ### Taxonomy entries and the `HierarchyLookup` index (`hierarchy_validator.py`) -/

namespace Spend

/-- One taxonomy entry `{N1, N2, N3, N4}` (`h.get('Ni')` with missing keys
modelled as the empty string, which Python's `or ''` also yields). -/
structure Entry where
  N1 : String
  N2 : String
  N3 : String
  N4 : String
deriving DecidableEq, Repr

/-- Insert into a Python `set`, modelled as a duplicate-free list in
first-insertion order. -/
def addSet [DecidableEq α] (l : List α) (x : α) : List α :=
  if x ∈ l then l else l ++ [x]

/-- Point update of a map modelled as a function (`d[k] = v`). -/
def upd [DecidableEq κ] (f : κ → β) (k : κ) (v : β) : κ → β :=
  fun x => if x = k then v else f x

/-- The precomputed lookup structures of `HierarchyLookup.__init__`.
`defaultdict(set)` / `defaultdict(list)` become total functions defaulting to
`[]`; the plain `canonical_case` dict becomes an `Option`-valued function. -/
structure HierarchyLookup where
  valid_paths : List (String × String × String × String)
  valid_n1s : List String
  valid_n2s : List String
  valid_n3s : List String
  valid_n4s : List String
  n2_to_n1 : String → List String
  n3_to_n1n2 : String → List (String × String)
  n4_to_paths : String → List (String × String × String)
  n1n2_to_n3s : String × String → List String
  n1n2n3_to_n4s : String × String × String → List String
  canonical_case : String → Option String

/-- The empty lookup (state before the constructor's loop). -/
def HierarchyLookup.empty : HierarchyLookup :=
  ⟨[], [], [], [], [], fun _ => [], fun _ => [], fun _ => [], fun _ => [],
    fun _ => [], fun _ => none⟩

/-- Model of `canonical_case[val.lower()] = val`. -/
def updCC (f : String → Option String) (v : String) : String → Option String :=
  upd f (pyLower v) (some v)

/-- Body of the constructor's `for h in entries:` loop: skip the entry when its
stripped `N4` is empty, otherwise add it to every derived structure. -/
def updateEntry (lk : HierarchyLookup) (h : Entry) : HierarchyLookup :=
  let n1 := pyStrip h.N1
  let n2 := pyStrip h.N2
  let n3 := pyStrip h.N3
  let n4 := pyStrip h.N4
  if n4 = "" then lk else
  let n1l := pyLower n1
  let n2l := pyLower n2
  let n3l := pyLower n3
  let n4l := pyLower n4
  { valid_paths := addSet lk.valid_paths (n1l, n2l, n3l, n4l)
    valid_n1s := addSet lk.valid_n1s n1l
    valid_n2s := addSet lk.valid_n2s n2l
    valid_n3s := addSet lk.valid_n3s n3l
    valid_n4s := addSet lk.valid_n4s n4l
    n2_to_n1 := upd lk.n2_to_n1 n2l (addSet (lk.n2_to_n1 n2l) n1l)
    n3_to_n1n2 := upd lk.n3_to_n1n2 n3l (addSet (lk.n3_to_n1n2 n3l) (n1l, n2l))
    n4_to_paths := upd lk.n4_to_paths n4l (lk.n4_to_paths n4l ++ [(n1l, n2l, n3l)])
    n1n2_to_n3s := upd lk.n1n2_to_n3s (n1l, n2l) (addSet (lk.n1n2_to_n3s (n1l, n2l)) n3l)
    n1n2n3_to_n4s := upd lk.n1n2n3_to_n4s (n1l, n2l, n3l)
      (addSet (lk.n1n2n3_to_n4s (n1l, n2l, n3l)) n4l)
    canonical_case := updCC (updCC (updCC (updCC lk.canonical_case n1) n2) n3) n4 }

/-- Constructor `HierarchyLookup.__init__` over a list of entries. -/
def HierarchyLookup.build (es : List Entry) : HierarchyLookup :=
  es.foldl updateEntry HierarchyLookup.empty

/-- Model of `HierarchyLookup.get_canonical`. -/
def HierarchyLookup.get_canonical (lk : HierarchyLookup) (v : String) : String :=
  (lk.canonical_case (pyStrip (pyLower v))).getD v

/-! ### The reconciliation cascade (`validate_and_correct` and helpers) -/

/-- The per-row fields read and written by the cascade; the remaining columns
of a chunk row are untouched by `validate_and_correct`. -/
structure VRow where
  N1 : String
  N2 : String
  N3 : String
  N4 : String
  classification_source : String
deriving DecidableEq, Repr

/-- Which arm of the cascade settled the row (the `stats` counter the source
increments for it). -/
inductive Step where
  | exact
  | levelShift
  | scopedFuzzy
  | n4Reverse
  | noMatch
  | skipped
deriving DecidableEq, Repr

/-- Model of `_apply_canonical`: write the canonical display casing of the four
(lower-cased) path components back into the row. -/
def apply_canonical (res : VRow) (n1l n2l n3l n4l : String) (lk : HierarchyLookup) : VRow :=
  { res with
    N1 := lk.get_canonical n1l
    N2 := lk.get_canonical n2l
    N3 := lk.get_canonical n3l
    N4 := lk.get_canonical n4l }

/-- Step B inner loop over the possible level-1 parents (`for real_n1 in
possible_n1s`).  Python iterates a `set` here; the model iterates the list in
first-insertion order. -/
def shiftLoop (fuzzy : String → List String → Option String) (lk : HierarchyLookup)
    (res : VRow) (source n1l n2l n3l : String) : List String → Option VRow
  | [] => none
  | real_n1 :: rest =>
    if (real_n1, n1l, n2l, n3l) ∈ lk.valid_paths then
      some { apply_canonical res real_n1 n1l n2l n3l lk with
             classification_source := source ++ " [shift-corrected]" }
    else
      let valid_n4s := lk.n1n2n3_to_n4s (real_n1, n1l, n2l)
      if valid_n4s ≠ [] then
        match fuzzy n3l valid_n4s with
        | some fz =>
          some { apply_canonical res real_n1 n1l n2l fz lk with
                 classification_source := source ++ " [shift-corrected]" }
        | none => shiftLoop fuzzy lk res source n1l n2l n3l rest
      else shiftLoop fuzzy lk res source n1l n2l n3l rest

/-- Step B (level-shift detection): applies only when the returned `N1` is not
a valid level-1 value but is a valid level-2 value. -/
def try_level_shift (fuzzy : String → List String → Option String) (lk : HierarchyLookup)
    (res : VRow) (source n1l n2l n3l : String) : Option VRow :=
  if n1l ∉ lk.valid_n1s ∧ n1l ∈ lk.valid_n2s then
    shiftLoop fuzzy lk res source n1l n2l n3l (lk.n2_to_n1 n1l)
  else none

/-- Step C (`_try_partial_fuzzy`): `N1` and `N2` individually valid, then
exact-or-fuzzy `N3` scoped to the branch, then exact-or-fuzzy `N4` (with the
single-leaf shortcut). -/
def try_scoped_fuzzy (fuzzy : String → List String → Option String) (lk : HierarchyLookup)
    (res : VRow) (source n1l n2l n3l n4l : String) : Option VRow :=
  if n1l ∈ lk.valid_n1s ∧ n2l ∈ lk.valid_n2s then
    let valid_n3s := lk.n1n2_to_n3s (n1l, n2l)
    if valid_n3s = [] then none else
    match (if n3l ∈ valid_n3s then some n3l else fuzzy n3l valid_n3s) with
    | none => none
    | some t3 =>
      let valid_n4s := lk.n1n2n3_to_n4s (n1l, n2l, t3)
      if valid_n4s = [] then none else
      match (if n4l ∈ valid_n4s then some n4l else
              match fuzzy n4l valid_n4s with
              | some t4 => some t4
              | none => if valid_n4s.length = 1 then valid_n4s.head? else none) with
      | none => none
      | some t4 =>
        some { apply_canonical res n1l n2l t3 t4 lk with
               classification_source := source ++ " [fuzzy-corrected]" }
  else none

/-- Step D scoring: overlap of a stored path with the returned `N1/N2/N3`,
weighted 3/2/1 toward the higher levels. -/
def score_path (n1l n2l n3l : String) (p : String × String × String) : ℤ :=
  (if p.1 = n1l then 3 else 0) + (if p.2.1 = n2l then 2 else 0) +
    (if p.2.2 = n3l then 1 else 0)

/-- Step D inner loop: first strictly-better path wins (`if score > best_score`),
starting from `best_score = -1`, `best_path = None`. -/
def bestLoop (n1l n2l n3l : String) :
    List (String × String × String) → ℤ → Option (String × String × String) →
      ℤ × Option (String × String × String)
  | [], best_score, best_path => (best_score, best_path)
  | p :: rest, best_score, best_path =>
    if score_path n1l n2l n3l p > best_score then
      bestLoop n1l n2l n3l rest (score_path n1l n2l n3l p) (some p)
    else bestLoop n1l n2l n3l rest best_score best_path

/-- Step D (`_try_n4_reverse`): reverse lookup from the returned `N4` (exact,
else fuzzy over all valid leaves); a unique parent path is adopted outright,
several candidate paths are scored and the best is adopted only when its
score is positive. -/
def try_n4_reverse (fuzzy : String → List String → Option String) (lk : HierarchyLookup)
    (res : VRow) (source n1l n2l n3l n4l : String) : Option VRow :=
  let paths0 := lk.n4_to_paths n4l
  let resolved :=
    if paths0 = [] then
      match fuzzy n4l lk.valid_n4s with
      | some fz => (fz, lk.n4_to_paths fz)
      | none => (n4l, paths0)
    else (n4l, paths0)
  match resolved.2 with
  | [] => none
  | [p] =>
    some { apply_canonical res p.1 p.2.1 p.2.2 resolved.1 lk with
           classification_source := source ++ " [n4-reverse]" }
  | _ :: _ :: _ =>
    let best := bestLoop n1l n2l n3l resolved.2 (-1) none
    match best.2 with
    | some bp =>
      if best.1 > 0 then
        some { apply_canonical res bp.1 bp.2.1 bp.2.2 resolved.1 lk with
               classification_source := source ++ " [n4-reverse]" }
      else none
    | none => none

/-- Body of `validate_and_correct`'s per-row loop: skip non-LLM or
unclassified rows, then run steps A–E in order, stopping at the first
success. -/
def validate_row (fuzzy : String → List String → Option String) (lk : HierarchyLookup)
    (res : VRow) : VRow × Step :=
  let source := res.classification_source
  if pyIn "LLM" source = false then (res, Step.skipped)
  else
    let n1 := pyStrip res.N1
    let n2 := pyStrip res.N2
    let n3 := pyStrip res.N3
    let n4 := pyStrip res.N4
    if n1 = "" ∨ pyLower n1 = "não identificado" ∨ pyLower n1 = "nao identificado" then
      (res, Step.skipped)
    else
      let n1l := pyLower n1
      let n2l := pyLower n2
      let n3l := pyLower n3
      let n4l := pyLower n4
      if (n1l, n2l, n3l, n4l) ∈ lk.valid_paths then
        (apply_canonical res n1l n2l n3l n4l lk, Step.exact)
      else
        match try_level_shift fuzzy lk res source n1l n2l n3l with
        | some r => (r, Step.levelShift)
        | none =>
          match try_scoped_fuzzy fuzzy lk res source n1l n2l n3l n4l with
          | some r => (r, Step.scopedFuzzy)
          | none =>
            match try_n4_reverse fuzzy lk res source n1l n2l n3l n4l with
            | some r => (r, Step.n4Reverse)
            | none =>
              ({ res with classification_source := source ++ " [unvalidated]" }, Step.noMatch)

/-- Model of `validate_and_correct`: run the cascade over every row of a chunk result
(the lookup is built once from the hierarchy). -/
def validate_and_correct (fuzzy : String → List String → Option String)
    (hierarchy : List Entry) (chunk_results : List VRow) : List VRow :=
  let lk := HierarchyLookup.build hierarchy
  chunk_results.map fun r => (validate_row fuzzy lk r).1

end Spend

/-! ### Dictionary matching (`taxonomy_engine.match_n4_without_priority`) -/

namespace Spend

/-- A full `{N1,N2,N3,N4}` record from `taxonomy_by_n4`. -/
structure Taxo where
  N1 : String
  N2 : String
  N3 : String
  N4 : String
deriving DecidableEq, Repr

/-- Python `dict.fromkeys` / set-accumulation: deduplicate keeping the first
occurrence. -/
def pyDedup [DecidableEq α] (l : List α) : List α := l.foldl addSet []

/-- First-match association-list lookup (used for dicts whose construction
keeps keys distinct). -/
def lookupA [DecidableEq κ] : List (κ × β) → κ → Option β
  | [], _ => none
  | (k, v) :: rest, q => if q = k then some v else lookupA rest q

/-- CPython `d[k] = v` on an association list: overwrite in place, append new
keys at the end (dicts preserve first-insertion position). -/
def dictInsert [DecidableEq κ] (l : List (κ × β)) (k : κ) (v : β) : List (κ × β) :=
  if (lookupA l k).isSome then l.map (fun p => if p.1 = k then (k, v) else p)
  else l ++ [(k, v)]

/-- The three dictionary structures produced by `build_patterns`, taken
together (the source passes them as three parallel parameters that are either
all `None` or all present).  A compiled regex is modelled extensionally as the
predicate `pattern.search(desc_norm) is not None`. -/
structure DictData where
  patterns_by_n4 : List (String × List (String → Bool))
  terms_by_n4 : String → List String
  taxonomy_by_n4 : String → Option Taxo

/-- Score one category: count of its patterns found in the description and
the matching original terms, in pattern order (`zip(pattern_list,
terms_by_n4[n4_category])`). -/
def scoreCat (desc_norm : String) (pats : List (String → Bool)) (terms : List String) :
    ℕ × List String :=
  let hits := (pats.zip terms).filter fun pt => pt.1 desc_norm
  (hits.length, hits.map fun pt => pt.2)

/-- Model of `resolve_level`: deduplicate the non-empty values preserving order; a
single distinct value is kept as-is, several are joined with `" | "`. -/
def resolve_level (values : List String) : String :=
  let unique_values := pyDedup (values.filter fun v => v ≠ "")
  match unique_values with
  | [] => ""
  | [v] => v
  | vs => String.intercalate " | " vs

/-- Deduplicate matched terms by their normalized form, preserving order. -/
def dedupByNorm (normText : String → String) (ts : List String) : List String :=
  ts.foldl (fun acc t => if normText t ∈ acc.map normText then acc else acc ++ [t]) []

/-- Result tuple of `match_n4_without_priority`: `(taxonomy, match_type,
matched_terms, match_score)`; the empty taxonomy dict `{}` is `none`. -/
structure MatchRes where
  taxonomy : Option Taxo
  match_type : String
  matched_terms : List String
  match_score : ℕ
deriving Repr

/-- Level access `t.get(level, '')` on a full taxonomy record. -/
def Taxo.get (t : Taxo) (level : String) : String :=
  if level = "N1" then t.N1
  else if level = "N2" then t.N2
  else if level = "N3" then t.N3
  else if level = "N4" then t.N4
  else ""

/-- The `scores` / `matched_terms_per_n4` accumulation of
`match_n4_without_priority`: only categories with a positive score are kept,
in dictionary (insertion) order. -/
def dictPositives (desc_norm : String) (d : DictData) : List (String × ℕ × List String) :=
  (d.patterns_by_n4.map fun p => (p.1, scoreCat desc_norm p.2 (d.terms_by_n4 p.1))).filter
    fun s => 0 < s.2.1

/-- Model of `max_score = max(scores.values())`. -/
def dictMaxScore (desc_norm : String) (d : DictData) : ℕ :=
  ((dictPositives desc_norm d).map fun s => s.2.1).foldl max 0

/-- The `winners`: the categories tied at the highest positive score. -/
def dictWinners (desc_norm : String) (d : DictData) : List (String × ℕ × List String) :=
  (dictPositives desc_norm d).filter fun s => s.2.1 = dictMaxScore desc_norm d

/-- The values of the tied winners at one hierarchy level (`n1_values` …;
at level `N4` the winners' own names). -/
def winnerVals (d : DictData) (winners : List (String × ℕ × List String))
    (level : String) : List String :=
  if level = "N4" then winners.map fun w => w.1
  else winners.map fun w => ((d.taxonomy_by_n4 w.1).getD ⟨"", "", "", ""⟩).get level

/-- Model of `match_n4_without_priority`.  Here `normText` models `normalize_text` (used
only to deduplicate the tied categories' matched terms). -/
def match_n4_without_priority (normText : String → String) (desc_norm : String)
    (d : DictData) : MatchRes :=
  if desc_norm = "" then ⟨none, "Nenhum", [], 0⟩ else
  if dictPositives desc_norm d = [] then ⟨none, "Nenhum", [], 0⟩ else
  let max_score := dictMaxScore desc_norm d
  match dictWinners desc_norm d with
  | [w] => ⟨d.taxonomy_by_n4 w.1, "Único", w.2.2, max_score⟩
  | _ =>
    let winners := dictWinners desc_norm d
    let ambiguous_taxonomy : Taxo :=
      ⟨resolve_level (winnerVals d winners "N1"), resolve_level (winnerVals d winners "N2"),
        resolve_level (winnerVals d winners "N3"), resolve_level (winnerVals d winners "N4")⟩
    let all_matched_terms := winners.foldl (fun acc w => acc ++ w.2.2) []
    ⟨some ambiguous_taxonomy, "Ambíguo", dedupByNorm normText all_matched_terms, max_score⟩

/-! ### Hybrid classification (`hybrid_classifier.py`) -/

/-- One ML top-K candidate (`{'N4':…, 'confidence':…, 'N1':…, 'N2':…, 'N3':…}`). -/
structure Cand where
  N4 : String
  confidence : ℚ
  N1 : String
  N2 : String
  N3 : String
deriving DecidableEq, Repr

/-- Level access `c.get(level, '')` for the four level keys. -/
def Cand.get (c : Cand) (level : String) : String :=
  if level = "N1" then c.N1
  else if level = "N2" then c.N2
  else if level = "N3" then c.N3
  else if level = "N4" then c.N4
  else ""

/-- Inner loop of `find_ambiguity_level` over the levels `N1 … N4`. -/
def famLoop (candidates : List Cand) : List String → Option String × List String
  | [] => (none, [])
  | level :: rest =>
    let values := pyDedup ((candidates.map fun c => c.get level).filter fun v => v ≠ "")
    if 1 < values.length then (some level, values)
    else famLoop candidates rest

/-- Model of `find_ambiguity_level`: the first hierarchical level at which the
candidates' (non-empty) values diverge, with the distinct values there.
`list(set(…))` is modelled as first-occurrence deduplication. -/
def find_ambiguity_level (candidates : List Cand) : Option String × List String :=
  if candidates.length < 2 then (none, [])
  else famLoop candidates ["N1", "N2", "N3", "N4"]

/-- The `ClassificationResult` record. -/
structure ClassificationResult where
  status : String
  n4 : String
  n3 : String
  n2 : String
  n1 : String
  matched_terms : List String
  confidence : ℚ
  source : String
  ambiguous_n4s : List String
  ambiguity_level : Option String
  ambiguous_options : List String
  top_candidates : List Cand
deriving DecidableEq, Repr

/-- The `{N1,N2,N3}` record of the `n4_hierarchy.json` mapping. -/
structure Hier3 where
  N1 : String
  N2 : String
  N3 : String
deriving DecidableEq, Repr

/-- Per-candidate construction of `predict`:
`hierarchy.get(n4, {}).get('Ni', '')`. -/
def mkCand (hier : String → Option Hier3) (x : String × ℚ) : Cand :=
  ⟨x.1, x.2, ((hier x.1).map Hier3.N1).getD "", ((hier x.1).map Hier3.N2).getD "",
    ((hier x.1).map Hier3.N3).getD ""⟩

/-- The dict `predict_single` returns (`predict`'s per-text result). -/
structure MLResult where
  confidence : ℚ
  n4_predicted : String
  N1 : String
  N2 : String
  N3 : String
  top_candidates : List Cand
deriving DecidableEq, Repr

/-- Result-building part of `ml_classifier.predict` for one text, taking the
ranked top-K `(label, probability)` list as produced by the (external)
vectorizer/classifier/argsort; `predict` indexes `top_k_n4s[0]`, so the list
is non-empty whenever a model exists. -/
def buildMLResult (hier : String → Option Hier3) : List (String × ℚ) → Option MLResult
  | [] => none
  | top :: rest =>
    some ⟨top.2, top.1, ((hier top.1).map Hier3.N1).getD "",
      ((hier top.1).map Hier3.N2).getD "", ((hier top.1).map Hier3.N3).getD "",
      (top :: rest).map (mkCand hier)⟩

/-- One item of an LLM collaborator response (a four-level guess plus a
confidence; `get("Ni", "")` defaults are the empty string). -/
structure LLMRes where
  N1 : String
  N2 : String
  N3 : String
  N4 : String
  confidence : ℚ
deriving DecidableEq, Repr

/-- The `ClassificationResult` built from a usable single-item LLM answer
(used identically in Decision 0 and Decision 4). -/
def llmUnique (r : LLMRes) : ClassificationResult :=
  ⟨"Único", r.N4, r.N3, r.N2, r.N1, [], r.confidence, "LLM (UNSPSC)", [], none, [], []⟩

/-- The "what to fill based on ambiguity level" block of Decision 2: fields
above the ambiguity level come from the top candidate, the ambiguity level
and the deeper ones are blank; with no detected level the top prediction's
own path is kept (the code's fallback branch). -/
def ambiguityFill (ml_n1 ml_n2 ml_n3 ml_n4 : String) (top_candidates : List Cand)
    (level : Option String) : String × String × String × String :=
  let topN1 := ((top_candidates.head?).map Cand.N1).getD ""
  let topN2 := ((top_candidates.head?).map Cand.N2).getD ""
  let topN3 := ((top_candidates.head?).map Cand.N3).getD ""
  if level = some "N1" then ("", "", "", "")
  else if level = some "N2" then (topN1, "", "", "")
  else if level = some "N3" then (topN1, topN2, "", "")
  else if level = some "N4" then (topN1, topN2, topN3, "")
  else (ml_n1, ml_n2, ml_n3, ml_n4)

/-- Model of `desc_norm if desc_norm else description`: the description actually fed
to the dictionary matcher (`None` and the empty string both fall back). -/
def pyEffDesc (description : String) (desc_norm : Option String) : String :=
  match desc_norm with
  | some s => if s = "" then description else s
  | none => description

/-- Decision 4 of `classify_hybrid`: the optional single-item LLM fallback,
falling back to "Nenhum" (not classified) with the confidence carried over
from the best prior attempt. -/
def llm_fallback_result (llm : List LLMRes) (use_llm_fallback : Bool)
    (ml_confidence : ℚ) : ClassificationResult :=
  let llmRes : Option ClassificationResult :=
    if use_llm_fallback then
      match llm with
      | r :: _ => if r.N1 ≠ "" then some (llmUnique r) else none
      | [] => none
    else none
  match llmRes with
  | some out => out
  | none =>
    ⟨"Nenhum", "", "", "", "", [], ml_confidence, "None", [], none, [], []⟩

/-- Decisions 1–4 of `classify_hybrid` (everything after the sector-"Padrão"
LLM-first branch and the model-loading step). -/
def classify_core (description : String) (dicts : Option DictData)
    (normText : String → String) (desc_norm : Option String)
    (ml : Option MLResult) (llm : List LLMRes)
    (confidence_threshold_unique confidence_threshold_ambiguous : ℚ)
    (use_llm_fallback : Bool) : ClassificationResult :=
    let ml_confidence := (ml.map MLResult.confidence).getD 0
    let ml_n4 := (ml.map MLResult.n4_predicted).getD ""
    let ml_n1 := (ml.map MLResult.N1).getD ""
    let ml_n2 := (ml.map MLResult.N2).getD ""
    let ml_n3 := (ml.map MLResult.N3).getD ""
    let top_candidates := ((ml.map MLResult.top_candidates).getD []).take 3
    -- Decision 1: high confidence → Único (ML).
    if ml_confidence ≥ confidence_threshold_unique then
      ⟨"Único", ml_n4, ml_n3, ml_n2, ml_n1, [], ml_confidence, "ML", [], none, [], top_candidates⟩
    -- Decision 2: medium confidence → Ambíguo (ML), no dictionary attempt.
    else if ml_confidence ≥ confidence_threshold_ambiguous then
      let fam := find_ambiguity_level top_candidates
      let ambiguous_n4s := top_candidates.map Cand.N4
      let filled := ambiguityFill ml_n1 ml_n2 ml_n3 ml_n4 top_candidates fam.1
      ⟨"Ambíguo", filled.2.2.2, filled.2.2.1, filled.2.1, filled.1, [], ml_confidence, "ML",
        ambiguous_n4s, fam.1, fam.2, top_candidates⟩
    else
      -- Decision 3: low confidence → dictionary fallback (when provided).
      let dictRes : Option ClassificationResult :=
        match dicts with
        | some d =>
          let m := match_n4_without_priority normText (pyEffDesc description desc_norm) d
          match m.taxonomy with
          | some taxo =>
            if m.match_type = "Único" ∨ m.match_type = "Ambíguo" then
              some ⟨m.match_type, taxo.N4, taxo.N3, taxo.N2, taxo.N1, m.matched_terms,
                ml_confidence, "Dictionary",
                (if m.match_type = "Ambíguo" then [taxo.N4] else []), none, [], []⟩
            else none
          | none => none
        | none => none
      match dictRes with
      | some out => out
      | none => llm_fallback_result llm use_llm_fallback ml_confidence

/-- Decision 0 of `classify_hybrid`: in the "Padrão" sector the LLM is asked
first; a missing or unusable answer falls through to the ordinary
decisions. -/
def padrao_llm_first (sector : String) (llm : List LLMRes) :
    Option ClassificationResult :=
  if sector = "Padrão" then
    match llm with
    | r :: _ => if r.N1 ≠ "" then some (llmUnique r) else none
    | [] => none
  else none

/-- Model of `classify_hybrid`.

* `dicts` bundles `dict_patterns` / `dict_terms` / `dict_taxonomy`
  (`none` models all three being `None`).
* `ml` models the classifier available after the optional `load_model` step
  (lines 164–172): `none` means no model was passed and loading failed, and
  `predict_single` is absorbed into the `MLResult` for this description.
* `llm` models the response of `classify_items_with_llm([description], …)`,
  the external collaborator being treated as a deterministic function of its
  arguments (both call sites pass the same arguments).
-/
def classify_hybrid (description sector : String) (dicts : Option DictData)
    (normText : String → String) (desc_norm : Option String)
    (ml : Option MLResult) (llm : List LLMRes)
    (confidence_threshold_unique confidence_threshold_ambiguous : ℚ)
    (use_llm_fallback : Bool) : ClassificationResult :=
  match padrao_llm_first sector llm with
  | some out => out
  | none =>
    classify_core description dicts normText desc_norm ml llm
      confidence_threshold_unique confidence_threshold_ambiguous use_llm_fallback

end Spend

/-! ### The chunk processor (`core_classification.process_dataframe_chunk`) -/

namespace Spend

/-- A chunk-result row as produced by `ClassificationResult.to_dict` and
mutated by the later passes. -/
structure CRow where
  status : String
  N1 : String
  N2 : String
  N3 : String
  N4 : String
  matched_terms : List String
  ml_confidence : ℚ
  classification_source : String
  ambiguous_n4s : List String
  ambiguity_level : Option String
  ambiguous_options : List String
  top_candidates : List Cand
deriving DecidableEq, Repr

/-- Model of `ClassificationResult.to_dict`. -/
def ClassificationResult.to_dict (r : ClassificationResult) : CRow :=
  ⟨r.status, r.n1, r.n2, r.n3, r.n4, r.matched_terms, r.confidence, r.source,
    r.ambiguous_n4s, r.ambiguity_level, r.ambiguous_options, r.top_candidates⟩

/-- Substring pass (strategy 4) of `_best_hierarchy_match`, iterating the
normalized-keys dict in insertion order. -/
def substrLoop (norm : String) : List (String × String) → Option String
  | [] => none
  | (hk, orig) :: rest =>
    if 5 ≤ hk.length ∧ (pyIn norm hk = true ∨ pyIn hk norm = true) then some orig
    else substrLoop norm rest

/-- Model of `_best_hierarchy_match`: exact key → accent-normalized key → fuzzy →
substring (min 5 chars).  `normMatch` models `_normalize_for_match`
(lower-case, strip, NFKD accent folding; on accent-free ASCII it equals
`pyStrip ∘ pyLower`). -/
def best_hierarchy_match (fuzzy : String → List String → Option String)
    (normMatch : String → String) (n4_text : String) (hierarchy_keys : List String)
    (norm_keys_map : List (String × String)) : Option String :=
  let key := pyStrip (pyLower n4_text)
  let norm := normMatch n4_text
  if key ∈ hierarchy_keys then some key
  else
    match lookupA norm_keys_map norm with
    | some orig => some orig
    | none =>
      match fuzzy key hierarchy_keys with
      | some m => some m
      | none =>
        if 5 ≤ norm.length then substrLoop norm norm_keys_map
        else none

/-- Pass-4 body for one row (`for res in chunk_results:` of the hierarchy
mapping block): rows that are not `Único` or have no `N4` are skipped; a
matched leaf adopts the custom hierarchy's full path, an unmatched one is
cleared to `Nenhum`.  The `match_cache` of the source only memoises the pure
`_best_hierarchy_match` and is dropped.  (`custom_hierarchy[matched_key]` in
Python assumes the matched key is present, as it is for every strategy that
only returns keys of the dict; the model keeps the row unchanged otherwise.) -/
def pass4_row (fuzzy : String → List String → Option String)
    (normMatch : String → String) (custom_hierarchy : List (String × Entry))
    (hierarchy_keys : List String) (norm_keys_map : List (String × String))
    (res : CRow) : CRow :=
  if res.status ≠ "Único" ∨ res.N4 = "" then res
  else
    let n4_val := res.N4
    let cache_key := pyStrip (pyLower n4_val)
    match best_hierarchy_match fuzzy normMatch n4_val hierarchy_keys norm_keys_map with
    | some matched_key =>
      match lookupA custom_hierarchy matched_key with
      | some h =>
        let source := if matched_key = cache_key then "Custom" else "Custom/fuzzy"
        { res with N1 := h.N1, N2 := h.N2, N3 := h.N3, N4 := h.N4,
                   classification_source := source ++ " (via " ++ res.classification_source ++ ")" }
      | none => res
    | none =>
      { res with N1 := "", N2 := "", N3 := "", N4 := "", status := "Nenhum",
                 matched_terms := if n4_val ≠ "" then ["Standard: " ++ n4_val] else [] }

/-- One input row of a chunk: the description column value and its
pre-normalized form (`_desc_norm`). -/
structure ChunkItem where
  desc : String
  desc_norm : String
deriving DecidableEq, Repr

/-- Merge one batched-LLM answer into the row at its target index
(`chunk_results[target_idx].update({...})`), skipping placeholder results. -/
def mergeLLM (acc : List (CRow × String)) (ri : LLMRes × ℕ) : List (CRow × String) :=
  if ri.1.N1 ≠ "" ∧ ri.1.N1 ∉ ["Não Identificado", "Nao Identificado", ""] then
    match acc.get? ri.2 with
    | some (row, dsc) =>
      acc.set ri.2
        ({ row with N1 := ri.1.N1, N2 := ri.1.N2, N3 := ri.1.N3, N4 := ri.1.N4,
                    status := "Único", ml_confidence := ri.1.confidence,
                    classification_source := "LLM (Batch)" }, dsc)
    | none => acc
  else acc

/-- Model of `process_dataframe_chunk` (the Chunk Processor), with the external
resources as parameters:

* `dicts`/`mlOf` model the artifacts returned by `load_model_for_sector` and
  the per-description `predict_single` (the model-load `try/except` is out of
  the modelled success path);
* `llmOf` models the single-item LLM call available to `classify_hybrid`
  (unreachable in the first pass for non-`"Padrão"` sectors, since
  `use_llm_fallback=False`);
* `llmBatch` models `classify_items_with_llm` on the unclassified batch,
  `none` standing for a raised exception (which the source catches and
  ignores);
* `custom_hierarchy` is the client taxonomy as loaded by
  `load_custom_hierarchy` (lower-cased keys, association list with dict
  semantics); `[]` models "absent or empty", both falsy in `if
  custom_hierarchy:`.
-/
def process_dataframe_chunk (sector : String) (dicts : DictData)
    (normText : String → String) (mlOf : String → Option MLResult)
    (llmOf : String → List LLMRes) (llmBatch : List String → Option (List LLMRes))
    (custom_hierarchy : List (String × Entry))
    (fuzzy : String → List String → Option String) (normMatch : String → String)
    (use_llm : Bool) (df_chunk : List ChunkItem) : List CRow :=
  -- First pass: local / ML classification, LLM fallback disabled; the
  -- hard-coded 0.45 / 0.25 thresholds are written as `mkRat` so they stay
  -- kernel-computable (`mkRat 45 100 = 45/100`, see `mkRat_45_eq`).
  -- `_desc_original` is carried alongside each row.
  let chunk_results : List (CRow × String) := df_chunk.map fun it =>
    ((classify_hybrid it.desc sector (some dicts) normText (some it.desc_norm)
        (mlOf it.desc) (llmOf it.desc) (mkRat 45 100) (mkRat 25 100) false).to_dict, it.desc)
  if use_llm then
    -- Second pass: batch LLM for the "Nenhum" rows.
    let unclassified := chunk_results.enum.filter fun p => p.2.1.status = "Nenhum"
    let unclassified_indices := unclassified.map fun p => p.1
    let unclassified_descs := unclassified.map fun p => p.2.2
    let afterLLM :=
      if unclassified_indices = [] then chunk_results
      else
        match llmBatch unclassified_descs with
        | some llm_batch_results =>
          (llm_batch_results.zip unclassified_indices).foldl mergeLLM chunk_results
        | none => chunk_results
    -- Pass 4: local mapping against the custom hierarchy.
    let afterMap :=
      if custom_hierarchy ≠ [] then
        let hierarchy_keys := custom_hierarchy.map fun p => p.1
        let norm_keys_map :=
          hierarchy_keys.foldl (fun m k => dictInsert m (normMatch k) k) []
        afterLLM.map fun p =>
          (pass4_row fuzzy normMatch custom_hierarchy hierarchy_keys norm_keys_map p.1, p.2)
      else afterLLM
    afterMap.map fun p => p.1
  else
    chunk_results.map fun p => p.1

end Spend

/-! ### Helper lemmas -/

namespace Spend

theorem mem_addSet [DecidableEq α] {l : List α} {x y : α} :
    y ∈ addSet l x ↔ y ∈ l ∨ y = x := by
  unfold addSet
  split <;> rename_i h
  · constructor
    · exact fun hy => Or.inl hy
    · rintro (hy | rfl) <;> [exact hy; exact h]
  · simp [List.mem_append]

theorem addSet_length_le [DecidableEq α] (l : List α) (x : α) :
    (addSet l x).length ≤ l.length + 1 := by
  unfold addSet
  split
  · omega
  · simp

theorem foldl_addSet_length_le [DecidableEq α] (l : List α) (acc : List α) :
    (l.foldl addSet acc).length ≤ acc.length + l.length := by
  induction l generalizing acc with
  | nil => simp
  | cons a l ih =>
    calc ((a :: l).foldl addSet acc).length = (l.foldl addSet (addSet acc a)).length := rfl
      _ ≤ (addSet acc a).length + l.length := ih _
      _ ≤ (acc.length + 1) + l.length := by
          have := addSet_length_le acc a; omega
      _ = acc.length + (a :: l).length := by simp; omega

theorem pyDedup_length_le [DecidableEq α] (l : List α) : (pyDedup l).length ≤ l.length := by
  have := foldl_addSet_length_le l ([] : List α)
  simpa [pyDedup] using this

theorem mem_foldl_addSet [DecidableEq α] {l acc : List α} {y : α} :
    y ∈ l.foldl addSet acc ↔ y ∈ acc ∨ y ∈ l := by
  induction l generalizing acc with
  | nil => simp
  | cons a l ih =>
    constructor
    · intro h
      rcases ih.mp h with h' | h'
      · rcases mem_addSet.mp h' with h'' | rfl
        · exact Or.inl h''
        · exact Or.inr (List.mem_cons_self _ _)
      · exact Or.inr (List.mem_cons_of_mem _ h')
    · intro h
      rcases h with h' | h'
      · exact ih.mpr (Or.inl (mem_addSet.mpr (Or.inl h')))
      · rcases List.mem_cons.mp h' with rfl | h''
        · exact ih.mpr (Or.inl (mem_addSet.mpr (Or.inr rfl)))
        · exact ih.mpr (Or.inr h'')

theorem mem_pyDedup [DecidableEq α] {l : List α} {y : α} : y ∈ pyDedup l ↔ y ∈ l := by
  unfold pyDedup
  rw [mem_foldl_addSet]
  simp

end Spend

/-! ### Reduction lemmas for the decision engine -/

namespace Spend

theorem padrao_llm_first_ne (sector : String) (llm : List LLMRes)
    (hs : sector ≠ "Padrão") : padrao_llm_first sector llm = none := by
  unfold padrao_llm_first
  rw [if_neg hs]

theorem classify_hybrid_ne_padrao (description sector : String) (dicts : Option DictData)
    (normText : String → String) (desc_norm : Option String) (ml : Option MLResult)
    (llm : List LLMRes) (cU cA : ℚ) (fb : Bool) (hs : sector ≠ "Padrão") :
    classify_hybrid description sector dicts normText desc_norm ml llm cU cA fb =
      classify_core description dicts normText desc_norm ml llm cU cA fb := by
  unfold classify_hybrid
  rw [padrao_llm_first_ne sector llm hs]

theorem classify_core_high (description : String) (dicts : Option DictData)
    (normText : String → String) (desc_norm : Option String) (r : MLResult)
    (llm : List LLMRes) (cU cA : ℚ) (fb : Bool) (h : cU ≤ r.confidence) :
    classify_core description dicts normText desc_norm (some r) llm cU cA fb =
      ⟨"Único", r.n4_predicted, r.N3, r.N2, r.N1, [], r.confidence, "ML", [], none, [],
        r.top_candidates.take 3⟩ := by
  unfold classify_core
  simp only [Option.map_some', Option.getD_some]
  rw [if_pos h]

theorem classify_core_mid (description : String) (dicts : Option DictData)
    (normText : String → String) (desc_norm : Option String) (r : MLResult)
    (llm : List LLMRes) (cU cA : ℚ) (fb : Bool) (h1 : ¬ cU ≤ r.confidence)
    (h2 : cA ≤ r.confidence) :
    classify_core description dicts normText desc_norm (some r) llm cU cA fb =
      ⟨"Ambíguo",
        (ambiguityFill r.N1 r.N2 r.N3 r.n4_predicted (r.top_candidates.take 3)
          (find_ambiguity_level (r.top_candidates.take 3)).1).2.2.2,
        (ambiguityFill r.N1 r.N2 r.N3 r.n4_predicted (r.top_candidates.take 3)
          (find_ambiguity_level (r.top_candidates.take 3)).1).2.2.1,
        (ambiguityFill r.N1 r.N2 r.N3 r.n4_predicted (r.top_candidates.take 3)
          (find_ambiguity_level (r.top_candidates.take 3)).1).2.1,
        (ambiguityFill r.N1 r.N2 r.N3 r.n4_predicted (r.top_candidates.take 3)
          (find_ambiguity_level (r.top_candidates.take 3)).1).1,
        [], r.confidence, "ML",
        (r.top_candidates.take 3).map Cand.N4,
        (find_ambiguity_level (r.top_candidates.take 3)).1,
        (find_ambiguity_level (r.top_candidates.take 3)).2,
        r.top_candidates.take 3⟩ := by
  unfold classify_core
  simp only [Option.map_some', Option.getD_some]
  rw [if_neg h1, if_pos h2]

theorem classify_core_dict (description : String) (d : DictData)
    (normText : String → String) (desc_norm : Option String) (r : MLResult)
    (llm : List LLMRes) (cU cA : ℚ) (fb : Bool) (t : Taxo)
    (h1 : ¬ cU ≤ r.confidence) (h2 : ¬ cA ≤ r.confidence)
    (hm : (match_n4_without_priority normText (pyEffDesc description desc_norm) d).taxonomy
            = some t)
    (ht : (match_n4_without_priority normText (pyEffDesc description desc_norm) d).match_type
            = "Único" ∨
          (match_n4_without_priority normText (pyEffDesc description desc_norm) d).match_type
            = "Ambíguo") :
    classify_core description (some d) normText desc_norm (some r) llm cU cA fb =
      ⟨(match_n4_without_priority normText (pyEffDesc description desc_norm) d).match_type,
        t.N4, t.N3, t.N2, t.N1,
        (match_n4_without_priority normText (pyEffDesc description desc_norm) d).matched_terms,
        r.confidence, "Dictionary",
        (if (match_n4_without_priority normText (pyEffDesc description desc_norm) d).match_type
              = "Ambíguo" then [t.N4] else []),
        none, [], []⟩ := by
  unfold classify_core
  simp only [Option.map_some', Option.getD_some]
  rw [if_neg h1, if_neg h2]
  simp only [hm]
  rw [if_pos ht]

end Spend

namespace Spend

/-- The distinct non-empty values the candidates take at one level (what
`find_ambiguity_level` computes per level). -/
def distinctNonempty (cands : List Cand) (level : String) : List String :=
  pyDedup ((cands.map fun c => c.get level).filter fun v => v ≠ "")

theorem distinctNonempty_length_le (cands : List Cand) (level : String) :
    (distinctNonempty cands level).length ≤ cands.length := by
  unfold distinctNonempty
  refine le_trans (pyDedup_length_le _) (le_trans (List.length_filter_le _ _) ?_)
  simp

theorem famLoop_cons (cands : List Cand) (level : String) (rest : List String) :
    famLoop cands (level :: rest) =
      if 1 < (distinctNonempty cands level).length then (some level, distinctNonempty cands level)
      else famLoop cands rest := rfl

end Spend

namespace Spend

/-- C2: with a trained model available (and a sector that is not the
LLM-first "Padrão" sector), the decision engine returns Unique from the
model's top prediction at confidence ≥ 0.45, Ambiguous on [0.25, 0.45)
without consulting the dictionary (the result is independent of the
dictionary inputs whenever confidence ≥ 0.25), and consults the dictionary
only below 0.25. -/
theorem C2_decision_thresholds (description sector : String) (normText : String → String)
    (desc_norm : Option String) (hier : String → Option Hier3) (top : String × ℚ)
    (rest : List (String × ℚ)) (llm : List LLMRes) (fb : Bool)
    (hs : sector ≠ "Padrão") :
    ((45 : ℚ)/100 ≤ top.2 →
      ∀ dicts, classify_hybrid description sector dicts normText desc_norm
          (buildMLResult hier (top :: rest)) llm (45/100) (25/100) fb =
        ⟨"Único", top.1, ((hier top.1).map Hier3.N3).getD "",
          ((hier top.1).map Hier3.N2).getD "", ((hier top.1).map Hier3.N1).getD "",
          [], top.2, "ML", [], none, [], ((top :: rest).map (mkCand hier)).take 3⟩)
    ∧ ((25 : ℚ)/100 ≤ top.2 → top.2 < 45/100 →
        ∀ dicts, (classify_hybrid description sector dicts normText desc_norm
            (buildMLResult hier (top :: rest)) llm (45/100) (25/100) fb).status = "Ambíguo" ∧
          (classify_hybrid description sector dicts normText desc_norm
            (buildMLResult hier (top :: rest)) llm (45/100) (25/100) fb).source = "ML")
    ∧ ((25 : ℚ)/100 ≤ top.2 →
        ∀ d₁ d₂, classify_hybrid description sector d₁ normText desc_norm
            (buildMLResult hier (top :: rest)) llm (45/100) (25/100) fb =
          classify_hybrid description sector d₂ normText desc_norm
            (buildMLResult hier (top :: rest)) llm (45/100) (25/100) fb)
    ∧ (top.2 < 25/100 → ∀ d t,
        (match_n4_without_priority normText (pyEffDesc description desc_norm) d).taxonomy
          = some t →
        ((match_n4_without_priority normText (pyEffDesc description desc_norm) d).match_type
            = "Único" ∨
          (match_n4_without_priority normText (pyEffDesc description desc_norm) d).match_type
            = "Ambíguo") →
        (classify_hybrid description sector (some d) normText desc_norm
          (buildMLResult hier (top :: rest)) llm (45/100) (25/100) fb).source
            = "Dictionary") := by
  refine ⟨?_, ?_, ?_, ?_⟩
  · intro h dicts
    rw [classify_hybrid_ne_padrao _ _ _ _ _ _ _ _ _ _ hs]
    exact classify_core_high description dicts normText desc_norm _ llm _ _ fb h
  · intro h1 h2 dicts
    rw [classify_hybrid_ne_padrao _ _ _ _ _ _ _ _ _ _ hs]
    have hb : buildMLResult hier (top :: rest) =
        some ⟨top.2, top.1, ((hier top.1).map Hier3.N1).getD "",
          ((hier top.1).map Hier3.N2).getD "", ((hier top.1).map Hier3.N3).getD "",
          (top :: rest).map (mkCand hier)⟩ := rfl
    rw [hb, classify_core_mid description dicts normText desc_norm _ llm _ _ fb
      (not_le.mpr h2) h1]
    exact ⟨rfl, rfl⟩
  · intro h d₁ d₂
    rw [classify_hybrid_ne_padrao _ _ _ _ _ _ _ _ _ _ hs,
      classify_hybrid_ne_padrao _ _ _ _ _ _ _ _ _ _ hs]
    have hb : buildMLResult hier (top :: rest) =
        some ⟨top.2, top.1, ((hier top.1).map Hier3.N1).getD "",
          ((hier top.1).map Hier3.N2).getD "", ((hier top.1).map Hier3.N3).getD "",
          (top :: rest).map (mkCand hier)⟩ := rfl
    rw [hb]
    by_cases hu : (45 : ℚ)/100 ≤ top.2
    · rw [classify_core_high description d₁ normText desc_norm _ llm _ _ fb hu,
        classify_core_high description d₂ normText desc_norm _ llm _ _ fb hu]
    · rw [classify_core_mid description d₁ normText desc_norm _ llm _ _ fb hu h,
        classify_core_mid description d₂ normText desc_norm _ llm _ _ fb hu h]
  · intro h d t hm ht
    rw [classify_hybrid_ne_padrao _ _ _ _ _ _ _ _ _ _ hs]
    have hb : buildMLResult hier (top :: rest) =
        some ⟨top.2, top.1, ((hier top.1).map Hier3.N1).getD "",
          ((hier top.1).map Hier3.N2).getD "", ((hier top.1).map Hier3.N3).getD "",
          (top :: rest).map (mkCand hier)⟩ := rfl
    have h45 : ¬ ((45 : ℚ)/100 ≤ top.2) := by
      rw [not_le]
      exact h.trans (by norm_num)
    have h25 : ¬ ((25 : ℚ)/100 ≤ top.2) := not_le.mpr h
    rw [hb, classify_core_dict description d normText desc_norm _ llm _ _ fb t h45 h25 hm ht]

/-- Witness for C2 at a concrete high-confidence prediction. -/
theorem C2_decision_thresholds_witness :
    ("varejo" : String) ≠ "Padrão" ∧ (45 : ℚ)/100 ≤ (9 : ℚ)/10 ∧
    classify_hybrid "CAFE" "varejo" none id none
        (buildMLResult (fun _ => some ⟨"a", "b", "c"⟩) [("L", (9 : ℚ)/10)]) []
        (45/100) (25/100) false =
      ⟨"Único", "L", "c", "b", "a", [], (9 : ℚ)/10, "ML", [], none, [],
        ([("L", (9 : ℚ)/10)].map (mkCand (fun _ => some ⟨"a", "b", "c"⟩))).take 3⟩ := by
  refine ⟨by decide, by norm_num, ?_⟩
  exact (C2_decision_thresholds "CAFE" "varejo" id none (fun _ => some ⟨"a", "b", "c"⟩)
    ("L", 9/10) [] [] false (by decide)).1 (by norm_num) none

end Spend

namespace Spend

theorem llm_fallback_result_source (llm : List LLMRes) (fb : Bool) (c : ℚ) :
    (llm_fallback_result llm fb c).source ∈ ["LLM (UNSPSC)", "Dictionary", "None"] := by
  unfold llm_fallback_result
  cases fb with
  | false => simp
  | true =>
    cases llm with
    | nil => simp
    | cons r rs =>
      by_cases hn : r.N1 ≠ ""
      · simp only [if_pos hn, if_true]
        simp [llmUnique]
      · simp only [if_neg hn, if_true]
        simp

theorem classify_core_no_ml_source (description : String) (dicts : Option DictData)
    (normText : String → String) (desc_norm : Option String) (llm : List LLMRes) (fb : Bool) :
    (classify_core description dicts normText desc_norm none llm (45/100) (25/100) fb).source
      ∈ ["LLM (UNSPSC)", "Dictionary", "None"] := by
  unfold classify_core
  simp only [Option.map_none', Option.getD_none]
  rw [if_neg (by norm_num : ¬ ((45 : ℚ)/100 ≤ (0 : ℚ))),
    if_neg (by norm_num : ¬ ((25 : ℚ)/100 ≤ (0 : ℚ)))]
  cases dicts with
  | none => exact llm_fallback_result_source llm fb 0
  | some d =>
    cases ht : (match_n4_without_priority normText (pyEffDesc description desc_norm) d).taxonomy with
    | none =>
      simp only [ht]
      exact llm_fallback_result_source llm fb 0
    | some t =>
      simp only [ht]
      by_cases hty :
          (match_n4_without_priority normText (pyEffDesc description desc_norm) d).match_type
              = "Único" ∨
            (match_n4_without_priority normText (pyEffDesc description desc_norm) d).match_type
              = "Ambíguo"
      · rw [if_pos hty]
        simp
      · rw [if_neg hty]
        exact llm_fallback_result_source llm fb 0

/-- C9: when no trained model is available for the sector (model loading
failed, `ml = none`), the decision engine still returns a classification
outcome, and its source is one of the dictionary / LLM / unmatched stages —
never the model. -/
theorem C9_no_model_graceful (description sector : String) (dicts : Option DictData)
    (normText : String → String) (desc_norm : Option String) (llm : List LLMRes) (fb : Bool) :
    (classify_hybrid description sector dicts normText desc_norm none llm
        (45/100) (25/100) fb).source ∈ ["LLM (UNSPSC)", "Dictionary", "None"] := by
  unfold classify_hybrid
  cases hp : padrao_llm_first sector llm with
  | none => exact classify_core_no_ml_source description dicts normText desc_norm llm fb
  | some out =>
    have : out.source = "LLM (UNSPSC)" := by
      unfold padrao_llm_first at hp
      by_cases hs : sector = "Padrão"
      · rw [if_pos hs] at hp
        cases llm with
        | nil => exact Option.noConfusion hp
        | cons r rs =>
          have hp' : (if r.N1 ≠ "" then some (llmUnique r) else none) = some out := hp
          by_cases hn : r.N1 ≠ ""
          · rw [if_pos hn] at hp'
            cases hp'
            rfl
          · rw [if_neg hn] at hp'
            exact Option.noConfusion hp'
      · rw [if_neg hs] at hp
        exact Option.noConfusion hp
    simp [this]

end Spend

namespace Spend

/-- C3 (amended): for a medium-confidence outcome the ambiguity level is the
first of N1–N4 at which the candidates have **more than one distinct
non-empty value** (empty values are ignored); levels above it are filled from
the top candidate, the ambiguity level and all deeper levels are empty, and
the recorded options are exactly the distinct non-empty candidate values at
that level. -/
theorem C3_ambiguity_level (description sector : String) (dicts : Option DictData)
    (normText : String → String) (desc_norm : Option String) (r : MLResult)
    (llm : List LLMRes) (fb : Bool) (res : ClassificationResult) (tc : List Cand)
    (hs : sector ≠ "Padrão")
    (h1 : (25 : ℚ)/100 ≤ r.confidence) (h2 : r.confidence < 45/100)
    (hres : res = classify_hybrid description sector dicts normText desc_norm (some r) llm
      (45/100) (25/100) fb)
    (htc : tc = r.top_candidates.take 3) :
    res.status = "Ambíguo" ∧ res.source = "ML" ∧
    (2 ≤ (distinctNonempty tc "N1").length →
      res.ambiguity_level = some "N1" ∧ res.ambiguous_options = distinctNonempty tc "N1" ∧
      res.n1 = "" ∧ res.n2 = "" ∧ res.n3 = "" ∧ res.n4 = "") ∧
    ((distinctNonempty tc "N1").length ≤ 1 → 2 ≤ (distinctNonempty tc "N2").length →
      res.ambiguity_level = some "N2" ∧ res.ambiguous_options = distinctNonempty tc "N2" ∧
      res.n1 = ((tc.head?).map Cand.N1).getD "" ∧ res.n2 = "" ∧ res.n3 = "" ∧ res.n4 = "") ∧
    ((distinctNonempty tc "N1").length ≤ 1 → (distinctNonempty tc "N2").length ≤ 1 →
      2 ≤ (distinctNonempty tc "N3").length →
      res.ambiguity_level = some "N3" ∧ res.ambiguous_options = distinctNonempty tc "N3" ∧
      res.n1 = ((tc.head?).map Cand.N1).getD "" ∧ res.n2 = ((tc.head?).map Cand.N2).getD "" ∧
      res.n3 = "" ∧ res.n4 = "") ∧
    ((distinctNonempty tc "N1").length ≤ 1 → (distinctNonempty tc "N2").length ≤ 1 →
      (distinctNonempty tc "N3").length ≤ 1 → 2 ≤ (distinctNonempty tc "N4").length →
      res.ambiguity_level = some "N4" ∧ res.ambiguous_options = distinctNonempty tc "N4" ∧
      res.n1 = ((tc.head?).map Cand.N1).getD "" ∧ res.n2 = ((tc.head?).map Cand.N2).getD "" ∧
      res.n3 = ((tc.head?).map Cand.N3).getD "" ∧ res.n4 = "") := by
  subst hres htc
  rw [classify_hybrid_ne_padrao _ _ _ _ _ _ _ _ _ _ hs,
    classify_core_mid description dicts normText desc_norm r llm _ _ fb (not_le.mpr h2) h1]
  refine ⟨rfl, rfl, ?_, ?_, ?_, ?_⟩
  · intro g1
    have hlen : ¬ (r.top_candidates.take 3).length < 2 := by
      have := distinctNonempty_length_le (r.top_candidates.take 3) "N1"
      omega
    have hfam : find_ambiguity_level (r.top_candidates.take 3) =
        (some "N1", distinctNonempty (r.top_candidates.take 3) "N1") := by
      unfold find_ambiguity_level
      rw [if_neg hlen, famLoop_cons, if_pos (by omega)]
    rw [hfam]
    exact ⟨rfl, rfl, rfl, rfl, rfl, rfl⟩
  · intro g1 g2
    have hlen : ¬ (r.top_candidates.take 3).length < 2 := by
      have := distinctNonempty_length_le (r.top_candidates.take 3) "N2"
      omega
    have hfam : find_ambiguity_level (r.top_candidates.take 3) =
        (some "N2", distinctNonempty (r.top_candidates.take 3) "N2") := by
      unfold find_ambiguity_level
      rw [if_neg hlen, famLoop_cons, if_neg (by omega), famLoop_cons, if_pos (by omega)]
    rw [hfam]
    exact ⟨rfl, rfl, rfl, rfl, rfl, rfl⟩
  · intro g1 g2 g3
    have hlen : ¬ (r.top_candidates.take 3).length < 2 := by
      have := distinctNonempty_length_le (r.top_candidates.take 3) "N3"
      omega
    have hfam : find_ambiguity_level (r.top_candidates.take 3) =
        (some "N3", distinctNonempty (r.top_candidates.take 3) "N3") := by
      unfold find_ambiguity_level
      rw [if_neg hlen, famLoop_cons, if_neg (by omega), famLoop_cons, if_neg (by omega),
        famLoop_cons, if_pos (by omega)]
    rw [hfam]
    exact ⟨rfl, rfl, rfl, rfl, rfl, rfl⟩
  · intro g1 g2 g3 g4
    have hlen : ¬ (r.top_candidates.take 3).length < 2 := by
      have := distinctNonempty_length_le (r.top_candidates.take 3) "N4"
      omega
    have hfam : find_ambiguity_level (r.top_candidates.take 3) =
        (some "N4", distinctNonempty (r.top_candidates.take 3) "N4") := by
      unfold find_ambiguity_level
      rw [if_neg hlen, famLoop_cons, if_neg (by omega), famLoop_cons, if_neg (by omega),
        famLoop_cons, if_neg (by omega), famLoop_cons, if_pos (by omega)]
    rw [hfam]
    exact ⟨rfl, rfl, rfl, rfl, rfl, rfl⟩

/-- The kernel-computable threshold literals used in concrete scenarios
denote exactly the configured 0.45 / 0.25 thresholds. -/
theorem mkRat_thresholds_eq :
    (mkRat 45 100 : ℚ) = 45/100 ∧ (mkRat 25 100 : ℚ) = 25/100 := by
  rw [Rat.mkRat_eq_div, Rat.mkRat_eq_div]
  norm_num

/-- C3 counterexample to the claim as stated: the two candidates take the
values `""` and `"A"` at level N1 — not all identical — yet the code skips
N1 (empty values are filtered out before the divergence test) and reports
the ambiguity level as N4. -/
theorem C3_counterexample :
    ((buildMLResult (fun n4 => if n4 = "y" then some ⟨"A", "P", "Q"⟩ else none)
        [("x", mkRat 3 10), ("y", mkRat 29 100)]).map
      (fun m => m.top_candidates.map Cand.N1)).getD [] = ["", "A"] ∧
    (classify_hybrid "desc" "varejo" none id none
        (buildMLResult (fun n4 => if n4 = "y" then some ⟨"A", "P", "Q"⟩ else none)
          [("x", mkRat 3 10), ("y", mkRat 29 100)])
        [] (mkRat 45 100) (mkRat 25 100) false).ambiguity_level = some "N4" := by
  constructor
  · rfl
  · decide

/-- Witness for C3 at the spec's own scenario: three candidates agreeing on
N1/N2 and diverging at N3. -/
theorem C3_ambiguity_level_witness :
    (2 ≤ (distinctNonempty ((⟨(3 : ℚ)/10, "a", "X", "Y", "Q1",
        [⟨"a", (3 : ℚ)/10, "X", "Y", "Q1"⟩, ⟨"b", (29 : ℚ)/100, "X", "Y", "Q2"⟩,
          ⟨"c", (28 : ℚ)/100, "X", "Y", "Q3"⟩]⟩ : MLResult).top_candidates.take 3) "N3").length) ∧
    (classify_hybrid "d" "varejo" none id none
        (some ⟨(3 : ℚ)/10, "a", "X", "Y", "Q1",
          [⟨"a", (3 : ℚ)/10, "X", "Y", "Q1"⟩, ⟨"b", (29 : ℚ)/100, "X", "Y", "Q2"⟩,
            ⟨"c", (28 : ℚ)/100, "X", "Y", "Q3"⟩]⟩)
        [] (45/100) (25/100) false).ambiguity_level = some "N3" ∧
    (classify_hybrid "d" "varejo" none id none
        (some ⟨(3 : ℚ)/10, "a", "X", "Y", "Q1",
          [⟨"a", (3 : ℚ)/10, "X", "Y", "Q1"⟩, ⟨"b", (29 : ℚ)/100, "X", "Y", "Q2"⟩,
            ⟨"c", (28 : ℚ)/100, "X", "Y", "Q3"⟩]⟩)
        [] (45/100) (25/100) false).ambiguous_options = ["Q1", "Q2", "Q3"] ∧
    (classify_hybrid "d" "varejo" none id none
        (some ⟨(3 : ℚ)/10, "a", "X", "Y", "Q1",
          [⟨"a", (3 : ℚ)/10, "X", "Y", "Q1"⟩, ⟨"b", (29 : ℚ)/100, "X", "Y", "Q2"⟩,
            ⟨"c", (28 : ℚ)/100, "X", "Y", "Q3"⟩]⟩)
        [] (45/100) (25/100) false).n1 = "X" ∧
    (classify_hybrid "d" "varejo" none id none
        (some ⟨(3 : ℚ)/10, "a", "X", "Y", "Q1",
          [⟨"a", (3 : ℚ)/10, "X", "Y", "Q1"⟩, ⟨"b", (29 : ℚ)/100, "X", "Y", "Q2"⟩,
            ⟨"c", (28 : ℚ)/100, "X", "Y", "Q3"⟩]⟩)
        [] (45/100) (25/100) false).n2 = "Y" ∧
    (classify_hybrid "d" "varejo" none id none
        (some ⟨(3 : ℚ)/10, "a", "X", "Y", "Q1",
          [⟨"a", (3 : ℚ)/10, "X", "Y", "Q1"⟩, ⟨"b", (29 : ℚ)/100, "X", "Y", "Q2"⟩,
            ⟨"c", (28 : ℚ)/100, "X", "Y", "Q3"⟩]⟩)
        [] (45/100) (25/100) false).n3 = "" ∧
    (classify_hybrid "d" "varejo" none id none
        (some ⟨(3 : ℚ)/10, "a", "X", "Y", "Q1",
          [⟨"a", (3 : ℚ)/10, "X", "Y", "Q1"⟩, ⟨"b", (29 : ℚ)/100, "X", "Y", "Q2"⟩,
            ⟨"c", (28 : ℚ)/100, "X", "Y", "Q3"⟩]⟩)
        [] (45/100) (25/100) false).n4 = "" := by
  have H := C3_ambiguity_level "d" "varejo" none id none
    ⟨(3 : ℚ)/10, "a", "X", "Y", "Q1",
      [⟨"a", (3 : ℚ)/10, "X", "Y", "Q1"⟩, ⟨"b", (29 : ℚ)/100, "X", "Y", "Q2"⟩,
        ⟨"c", (28 : ℚ)/100, "X", "Y", "Q3"⟩]⟩
    [] false _ _ (by decide) (by norm_num) (by norm_num) rfl rfl
  have H3 := H.2.2.2.2.1 (by decide) (by decide) (by decide)
  refine ⟨by decide, H3.1, H3.2.1.trans (by decide), H3.2.2.1.trans (by decide),
    H3.2.2.2.1.trans (by decide), H3.2.2.2.2.1, H3.2.2.2.2.2⟩

end Spend

namespace Spend

/-- A trivially failing fuzzy matcher, used to instantiate scenarios whose
control flow never consults the fuzzy matcher. -/
def fuzzyNone : String → List String → Option String := fun _ _ => none

/-- C5: on the taxonomy `[{MRO, Tubulações, Aço, Tubo Industrial}]`, an
LLM-sourced row answered one level too deep is corrected by the level-shift
step to exactly the stored path, with canonical casing.  The exact
shifted-path branch fires before any fuzzy matching, so the result holds for
every fuzzy matcher. -/
theorem C5_level_shift_scenario (fuzzy : String → List String → Option String) :
    validate_row fuzzy
        (HierarchyLookup.build [⟨"MRO", "Tubulações", "Aço", "Tubo Industrial"⟩])
        ⟨"Tubulações", "Aço", "Tubo Industrial", "Tubo Industrial", "LLM"⟩ =
      (⟨"MRO", "Tubulações", "Aço", "Tubo Industrial", "LLM [shift-corrected]"⟩,
        Step.levelShift) := by
  rfl

/-- C7: when an LLM-sourced row passes the unclassified guard but all of
steps A–D fail, the cascade leaves every one of N1–N4 exactly as the LLM
returned it and only appends the `[unvalidated]` tag to the classification
source. -/
theorem C7_no_match_conservative (fuzzy : String → List String → Option String)
    (lk : HierarchyLookup) (res : VRow)
    (hsrc : pyIn "LLM" res.classification_source = true)
    (hguard : ¬ (pyStrip res.N1 = "" ∨ pyLower (pyStrip res.N1) = "não identificado" ∨
      pyLower (pyStrip res.N1) = "nao identificado"))
    (hA : (pyLower (pyStrip res.N1), pyLower (pyStrip res.N2), pyLower (pyStrip res.N3),
      pyLower (pyStrip res.N4)) ∉ lk.valid_paths)
    (hB : try_level_shift fuzzy lk res res.classification_source (pyLower (pyStrip res.N1))
      (pyLower (pyStrip res.N2)) (pyLower (pyStrip res.N3)) = none)
    (hC : try_scoped_fuzzy fuzzy lk res res.classification_source (pyLower (pyStrip res.N1))
      (pyLower (pyStrip res.N2)) (pyLower (pyStrip res.N3)) (pyLower (pyStrip res.N4)) = none)
    (hD : try_n4_reverse fuzzy lk res res.classification_source (pyLower (pyStrip res.N1))
      (pyLower (pyStrip res.N2)) (pyLower (pyStrip res.N3)) (pyLower (pyStrip res.N4)) = none) :
    validate_row fuzzy lk res =
      ({ res with classification_source := res.classification_source ++ " [unvalidated]" },
        Step.noMatch) ∧
    (validate_row fuzzy lk res).1.N1 = res.N1 ∧ (validate_row fuzzy lk res).1.N2 = res.N2 ∧
    (validate_row fuzzy lk res).1.N3 = res.N3 ∧ (validate_row fuzzy lk res).1.N4 = res.N4 := by
  have key : validate_row fuzzy lk res =
      ({ res with classification_source := res.classification_source ++ " [unvalidated]" },
        Step.noMatch) := by
    unfold validate_row
    simp only [hsrc, if_neg hguard, if_neg hA, hB, hC, hD, Bool.true_eq_false, if_false]
  exact ⟨key, by rw [key], by rw [key], by rw [key], by rw [key]⟩

/-- Witness for C7: a single-entry taxonomy and an LLM row whose values match
nothing; every step fails and the row survives untouched except for the tag. -/
theorem C7_no_match_conservative_witness :
    validate_row fuzzyNone (HierarchyLookup.build [⟨"a", "b", "c", "x"⟩])
        ⟨"zzz", "zzz", "zzz", "zzz", "LLM (Batch)"⟩ =
      (⟨"zzz", "zzz", "zzz", "zzz", "LLM (Batch) [unvalidated]"⟩, Step.noMatch) :=
  (C7_no_match_conservative fuzzyNone (HierarchyLookup.build [⟨"a", "b", "c", "x"⟩])
    ⟨"zzz", "zzz", "zzz", "zzz", "LLM (Batch)"⟩ (by decide) (by decide) (by decide)
    (by decide) (by decide) (by decide)).1

end Spend

namespace Spend

theorem score_path_nonneg (n1l n2l n3l : String) (p : String × String × String) :
    0 ≤ score_path n1l n2l n3l p := by
  unfold score_path
  split_ifs <;> norm_num

theorem foldl_max_init_le (l : List ℤ) (b : ℤ) : b ≤ l.foldl max b := by
  induction l generalizing b with
  | nil => exact le_refl b
  | cons a l ih => exact le_trans (le_max_left b a) (ih (max b a))

theorem bestLoop_invariant (n1l n2l n3l : String) :
    ∀ (paths : List (String × String × String)) (b : ℤ)
      (bp : Option (String × String × String)),
      (bestLoop n1l n2l n3l paths b bp).1 =
        (paths.map (score_path n1l n2l n3l)).foldl max b ∧
      (((bestLoop n1l n2l n3l paths b bp).2 = bp ∧
          (bestLoop n1l n2l n3l paths b bp).1 = b) ∨
        ∃ q ∈ paths, (bestLoop n1l n2l n3l paths b bp).2 = some q ∧
          score_path n1l n2l n3l q = (bestLoop n1l n2l n3l paths b bp).1) := by
  intro paths
  induction paths with
  | nil => exact fun b bp => ⟨rfl, Or.inl ⟨rfl, rfl⟩⟩
  | cons p rest ih =>
    intro b bp
    by_cases hgt : score_path n1l n2l n3l p > b
    · have hred : bestLoop n1l n2l n3l (p :: rest) b bp =
          bestLoop n1l n2l n3l rest (score_path n1l n2l n3l p) (some p) := by
        show (if score_path n1l n2l n3l p > b then
            bestLoop n1l n2l n3l rest (score_path n1l n2l n3l p) (some p)
          else bestLoop n1l n2l n3l rest b bp) =
          bestLoop n1l n2l n3l rest (score_path n1l n2l n3l p) (some p)
        rw [if_pos hgt]
      obtain ⟨ih1, ih2⟩ := ih (score_path n1l n2l n3l p) (some p)
      constructor
      · rw [hred, ih1]
        simp only [List.map_cons, List.foldl_cons]
        rw [max_eq_right (le_of_lt hgt)]
      · rcases ih2 with ⟨he, hs⟩ | ⟨q, hq, he, hs⟩
        · exact Or.inr ⟨p, List.mem_cons_self p rest, by rw [hred, he], by rw [hred, hs]⟩
        · exact Or.inr ⟨q, List.mem_cons_of_mem p hq, by rw [hred, he], by rw [hred]; exact hs⟩
    · have hred : bestLoop n1l n2l n3l (p :: rest) b bp =
          bestLoop n1l n2l n3l rest b bp := by
        show (if score_path n1l n2l n3l p > b then
            bestLoop n1l n2l n3l rest (score_path n1l n2l n3l p) (some p)
          else bestLoop n1l n2l n3l rest b bp) =
          bestLoop n1l n2l n3l rest b bp
        rw [if_neg hgt]
      obtain ⟨ih1, ih2⟩ := ih b bp
      constructor
      · rw [hred, ih1]
        simp only [List.map_cons, List.foldl_cons]
        rw [max_eq_left (not_lt.mp hgt)]
      · rcases ih2 with ⟨he, hs⟩ | ⟨q, hq, he, hs⟩
        · exact Or.inl ⟨by rw [hred, he], by rw [hred, hs]⟩
        · exact Or.inr ⟨q, List.mem_cons_of_mem p hq, by rw [hred, he], by rw [hred]; exact hs⟩

theorem bestLoop_max (n1l n2l n3l : String) (p q : String × String × String)
    (rest : List (String × String × String)) :
    (bestLoop n1l n2l n3l (p :: q :: rest) (-1) none).1 =
      ((p :: q :: rest).map (score_path n1l n2l n3l)).foldl max (-1) ∧
    ∃ bp ∈ p :: q :: rest, (bestLoop n1l n2l n3l (p :: q :: rest) (-1) none).2 = some bp ∧
      score_path n1l n2l n3l bp = (bestLoop n1l n2l n3l (p :: q :: rest) (-1) none).1 := by
  obtain ⟨h1, h2⟩ := bestLoop_invariant n1l n2l n3l (p :: q :: rest) (-1) none
  refine ⟨h1, ?_⟩
  rcases h2 with ⟨_, hs⟩ | h2
  · -- impossible: the final best score is at least the first (non-negative) score
    exfalso
    have hge : (0 : ℤ) ≤ ((p :: q :: rest).map (score_path n1l n2l n3l)).foldl max (-1) := by
      simp only [List.map_cons, List.foldl_cons]
      refine le_trans ?_ (foldl_max_init_le _ _)
      have := score_path_nonneg n1l n2l n3l p
      omega
    rw [h1] at hs
    omega
  · exact h2

end Spend

namespace Spend

/-- C6 (amended): in the leaf reverse-lookup step, a returned `N4` that
equals (or, failing that, fuzzy-matches) a taxonomy leaf with exactly one
stored parent path adopts that path outright; with several stored paths each
is scored by level-wise equality with the returned N1/N2/N3 weighted 3/2/1
toward higher levels, and a highest-scoring path is adopted **only when its
score is positive** — when no stored path shares any level with the returned
values the step fails and the cascade falls through. -/
theorem C6_n4_reverse_lookup (fuzzy : String → List String → Option String)
    (lk : HierarchyLookup) (res : VRow) (source n1l n2l n3l n4l : String) :
    (∀ p, lk.n4_to_paths n4l = [p] →
      try_n4_reverse fuzzy lk res source n1l n2l n3l n4l =
        some { apply_canonical res p.1 p.2.1 p.2.2 n4l lk with
               classification_source := source ++ " [n4-reverse]" }) ∧
    (∀ fz p, lk.n4_to_paths n4l = [] → fuzzy n4l lk.valid_n4s = some fz →
      lk.n4_to_paths fz = [p] →
      try_n4_reverse fuzzy lk res source n1l n2l n3l n4l =
        some { apply_canonical res p.1 p.2.1 p.2.2 fz lk with
               classification_source := source ++ " [n4-reverse]" }) ∧
    (∀ p q rest, lk.n4_to_paths n4l = p :: q :: rest →
      (0 < ((p :: q :: rest).map (score_path n1l n2l n3l)).foldl max (-1) →
        ∃ bp ∈ p :: q :: rest,
          score_path n1l n2l n3l bp =
            ((p :: q :: rest).map (score_path n1l n2l n3l)).foldl max (-1) ∧
          try_n4_reverse fuzzy lk res source n1l n2l n3l n4l =
            some { apply_canonical res bp.1 bp.2.1 bp.2.2 n4l lk with
                   classification_source := source ++ " [n4-reverse]" }) ∧
      (((p :: q :: rest).map (score_path n1l n2l n3l)).foldl max (-1) ≤ 0 →
        try_n4_reverse fuzzy lk res source n1l n2l n3l n4l = none)) ∧
    (∀ fz p q rest, lk.n4_to_paths n4l = [] → fuzzy n4l lk.valid_n4s = some fz →
      lk.n4_to_paths fz = p :: q :: rest →
      (0 < ((p :: q :: rest).map (score_path n1l n2l n3l)).foldl max (-1) →
        ∃ bp ∈ p :: q :: rest,
          score_path n1l n2l n3l bp =
            ((p :: q :: rest).map (score_path n1l n2l n3l)).foldl max (-1) ∧
          try_n4_reverse fuzzy lk res source n1l n2l n3l n4l =
            some { apply_canonical res bp.1 bp.2.1 bp.2.2 fz lk with
                   classification_source := source ++ " [n4-reverse]" }) ∧
      (((p :: q :: rest).map (score_path n1l n2l n3l)).foldl max (-1) ≤ 0 →
        try_n4_reverse fuzzy lk res source n1l n2l n3l n4l = none)) := by
  refine ⟨?_, ?_, ?_, ?_⟩
  · intro p hp
    simp [try_n4_reverse, hp]
  · intro fz p hp hf hfp
    simp [try_n4_reverse, hp, hf, hfp]
  · intro p q rest hp
    have hred : try_n4_reverse fuzzy lk res source n1l n2l n3l n4l =
        (match (bestLoop n1l n2l n3l (p :: q :: rest) (-1) none).2 with
          | some bp =>
            if (bestLoop n1l n2l n3l (p :: q :: rest) (-1) none).1 > 0 then
              some { apply_canonical res bp.1 bp.2.1 bp.2.2 n4l lk with
                     classification_source := source ++ " [n4-reverse]" }
            else none
          | none => none) := by
      simp [try_n4_reverse, hp]
    obtain ⟨hmax, bp, hmem, he, hscore⟩ := bestLoop_max n1l n2l n3l p q rest
    constructor
    · intro hpos
      refine ⟨bp, hmem, by rw [hscore, hmax], ?_⟩
      rw [hred, he]
      show (if (bestLoop n1l n2l n3l (p :: q :: rest) (-1) none).1 > 0 then
          some { apply_canonical res bp.1 bp.2.1 bp.2.2 n4l lk with
                 classification_source := source ++ " [n4-reverse]" }
        else none) = _
      rw [if_pos (by rw [hmax]; exact hpos)]
    · intro hle
      rw [hred, he]
      show (if (bestLoop n1l n2l n3l (p :: q :: rest) (-1) none).1 > 0 then
          some { apply_canonical res bp.1 bp.2.1 bp.2.2 n4l lk with
                 classification_source := source ++ " [n4-reverse]" }
        else none) = none
      rw [if_neg (by rw [hmax]; omega)]
  · intro fz p q rest hp hf hfp
    have hred : try_n4_reverse fuzzy lk res source n1l n2l n3l n4l =
        (match (bestLoop n1l n2l n3l (p :: q :: rest) (-1) none).2 with
          | some bp =>
            if (bestLoop n1l n2l n3l (p :: q :: rest) (-1) none).1 > 0 then
              some { apply_canonical res bp.1 bp.2.1 bp.2.2 fz lk with
                     classification_source := source ++ " [n4-reverse]" }
            else none
          | none => none) := by
      simp [try_n4_reverse, hp, hf, hfp]
    obtain ⟨hmax, bp, hmem, he, hscore⟩ := bestLoop_max n1l n2l n3l p q rest
    constructor
    · intro hpos
      refine ⟨bp, hmem, by rw [hscore, hmax], ?_⟩
      rw [hred, he]
      show (if (bestLoop n1l n2l n3l (p :: q :: rest) (-1) none).1 > 0 then
          some { apply_canonical res bp.1 bp.2.1 bp.2.2 fz lk with
                 classification_source := source ++ " [n4-reverse]" }
        else none) = _
      rw [if_pos (by rw [hmax]; exact hpos)]
    · intro hle
      rw [hred, he]
      show (if (bestLoop n1l n2l n3l (p :: q :: rest) (-1) none).1 > 0 then
          some { apply_canonical res bp.1 bp.2.1 bp.2.2 fz lk with
                 classification_source := source ++ " [n4-reverse]" }
        else none) = none
      rw [if_neg (by rw [hmax]; omega)]

end Spend

namespace Spend

/-- C6 counterexample to the claim as stated: the returned `N4` `"x"` has two
stored parent paths, but the returned N1/N2/N3 match neither, so every path
scores 0; the claim says the highest-scoring path is still adopted, yet the
cascade falls through to step E and leaves the row's fields untouched,
tagging it unvalidated.  (No fuzzy matching is consulted on this input: the
exact leaf lookup already succeeds, so the result is the same for the real
`difflib` matcher.) -/
theorem C6_counterexample :
    ((HierarchyLookup.build [⟨"a", "b", "c", "x"⟩, ⟨"d", "e", "f", "x"⟩]).n4_to_paths
      "x").length = 2 ∧
    validate_row fuzzyNone (HierarchyLookup.build [⟨"a", "b", "c", "x"⟩, ⟨"d", "e", "f", "x"⟩])
        ⟨"g", "h", "i", "x", "LLM"⟩ =
      (⟨"g", "h", "i", "x", "LLM [unvalidated]"⟩, Step.noMatch) := by
  decide

/-- Witness for C6 at a unique-leaf lookup: the single stored path for the
returned `N4` is adopted outright. -/
theorem C6_n4_reverse_lookup_witness :
    (HierarchyLookup.build [⟨"a", "b", "c", "x"⟩]).n4_to_paths "x" = [("a", "b", "c")] ∧
    try_n4_reverse fuzzyNone (HierarchyLookup.build [⟨"a", "b", "c", "x"⟩])
        ⟨"g", "h", "i", "x", "LLM"⟩ "LLM" "g" "h" "i" "x" =
      some { apply_canonical ⟨"g", "h", "i", "x", "LLM"⟩ "a" "b" "c" "x"
              (HierarchyLookup.build [⟨"a", "b", "c", "x"⟩]) with
             classification_source := "LLM" ++ " [n4-reverse]" } :=
  ⟨by decide,
    (C6_n4_reverse_lookup fuzzyNone (HierarchyLookup.build [⟨"a", "b", "c", "x"⟩])
      ⟨"g", "h", "i", "x", "LLM"⟩ "LLM" "g" "h" "i" "x").1 ("a", "b", "c") (by decide)⟩

end Spend

namespace Spend

/-- A string fixed by both lower-casing and stripping (the normal form of
every key stored in a `HierarchyLookup`). -/
def LowStripped (x : String) : Prop := pyLower x = x ∧ pyStrip x = x

theorem lowStripped_norm (s : String) : LowStripped (pyLower (pyStrip s)) := by
  constructor
  · exact pyLower_idem (pyStrip s)
  · rw [pyStrip_pyLower, pyStrip_idem]

theorem updCC_spec (f : String → Option String) (w : String) (hw : pyStrip w = w)
    (hf : ∀ k v, f k = some v → pyLower v = k ∧ pyStrip v = v) :
    ∀ k v, updCC f w k = some v → pyLower v = k ∧ pyStrip v = v := by
  intro k v h
  unfold updCC upd at h
  by_cases hk : k = pyLower w
  · rw [if_pos hk] at h
    cases h
    exact ⟨hk.symm, hw⟩
  · rw [if_neg hk] at h
    exact hf k v h

theorem updateEntry_cc_spec (lk : HierarchyLookup) (e : Entry)
    (hf : ∀ k v, lk.canonical_case k = some v → pyLower v = k ∧ pyStrip v = v) :
    ∀ k v, (updateEntry lk e).canonical_case k = some v → pyLower v = k ∧ pyStrip v = v := by
  intro k v h
  simp only [updateEntry] at h
  by_cases h4 : pyStrip e.N4 = ""
  · rw [if_pos h4] at h
    exact hf k v h
  · rw [if_neg h4] at h
    exact updCC_spec _ _ (pyStrip_idem e.N4)
      (updCC_spec _ _ (pyStrip_idem e.N3)
        (updCC_spec _ _ (pyStrip_idem e.N2)
          (updCC_spec _ _ (pyStrip_idem e.N1) hf)) ) k v h

theorem canonical_case_build_spec (es : List Entry) :
    ∀ k v, (HierarchyLookup.build es).canonical_case k = some v →
      pyLower v = k ∧ pyStrip v = v := by
  unfold HierarchyLookup.build
  have aux : ∀ (l : List Entry) (lk : HierarchyLookup),
      (∀ k v, lk.canonical_case k = some v → pyLower v = k ∧ pyStrip v = v) →
      ∀ k v, (l.foldl updateEntry lk).canonical_case k = some v →
        pyLower v = k ∧ pyStrip v = v := by
    intro l
    induction l with
    | nil => exact fun lk h => h
    | cons e l ih => exact fun lk h => ih (updateEntry lk e) (updateEntry_cc_spec lk e h)
  exact aux es HierarchyLookup.empty (fun k v h => Option.noConfusion h)

theorem valid_paths_build_spec (es : List Entry) :
    ∀ p ∈ (HierarchyLookup.build es).valid_paths,
      LowStripped p.1 ∧ LowStripped p.2.1 ∧ LowStripped p.2.2.1 ∧ LowStripped p.2.2.2 ∧
        p.2.2.2 ≠ "" := by
  unfold HierarchyLookup.build
  have aux : ∀ (l : List Entry) (lk : HierarchyLookup),
      (∀ p ∈ lk.valid_paths, LowStripped p.1 ∧ LowStripped p.2.1 ∧ LowStripped p.2.2.1 ∧
        LowStripped p.2.2.2 ∧ p.2.2.2 ≠ "") →
      ∀ p ∈ (l.foldl updateEntry lk).valid_paths,
        LowStripped p.1 ∧ LowStripped p.2.1 ∧ LowStripped p.2.2.1 ∧ LowStripped p.2.2.2 ∧
          p.2.2.2 ≠ "" := by
    intro l
    induction l with
    | nil => exact fun lk h => h
    | cons e l ih =>
      intro lk h
      apply ih
      intro p hp
      simp only [updateEntry] at hp
      by_cases h4 : pyStrip e.N4 = ""
      · rw [if_pos h4] at hp
        exact h p hp
      · rw [if_neg h4] at hp
        rcases mem_addSet.mp hp with hmem | rfl
        · exact h p hmem
        · refine ⟨lowStripped_norm e.N1, lowStripped_norm e.N2, lowStripped_norm e.N3,
            lowStripped_norm e.N4, ?_⟩
          intro hcon
          exact h4 ((pyLower_empty_iff (pyStrip e.N4)).mp hcon)
  exact aux es HierarchyLookup.empty (fun p hp => absurd hp (List.not_mem_nil p))

/-- C8: the reconciliation cascade is idempotent on canonical results — a
row whose N1–N4 fields already carry the canonical display casing of a valid
path of the lookup is mapped to itself, and the exact-path step (A)
short-circuits.  The hypotheses mirror the per-row guards: the row is
LLM-sourced and its level-1 value is neither empty nor the
"não identificado" placeholder. -/
theorem C8_cascade_idempotent (es : List Entry)
    (fuzzy : String → List String → Option String) (src k1 k2 k3 k4 : String)
    (hmem : (k1, k2, k3, k4) ∈ (HierarchyLookup.build es).valid_paths)
    (hsrc : pyIn "LLM" src = true) (hk1 : k1 ≠ "")
    (hb1 : k1 ≠ "não identificado") (hb2 : k1 ≠ "nao identificado") :
    validate_row fuzzy (HierarchyLookup.build es)
        ⟨(HierarchyLookup.build es).get_canonical k1,
          (HierarchyLookup.build es).get_canonical k2,
          (HierarchyLookup.build es).get_canonical k3,
          (HierarchyLookup.build es).get_canonical k4, src⟩ =
      (⟨(HierarchyLookup.build es).get_canonical k1,
          (HierarchyLookup.build es).get_canonical k2,
          (HierarchyLookup.build es).get_canonical k3,
          (HierarchyLookup.build es).get_canonical k4, src⟩, Step.exact) := by
  obtain ⟨hp1, hp2, hp3, hp4, _⟩ := valid_paths_build_spec es (k1, k2, k3, k4) hmem
  -- each canonical field strips to itself and lowers back to its key
  have hcan : ∀ k : String, LowStripped k →
      pyStrip ((HierarchyLookup.build es).get_canonical k) =
        (HierarchyLookup.build es).get_canonical k ∧
      pyLower ((HierarchyLookup.build es).get_canonical k) = k := by
    intro k hk
    unfold HierarchyLookup.get_canonical
    rw [hk.1, hk.2]
    cases hv : (HierarchyLookup.build es).canonical_case k with
    | none => exact ⟨hk.2, hk.1⟩
    | some v =>
      obtain ⟨hv1, hv2⟩ := canonical_case_build_spec es k v hv
      exact ⟨hv2, hv1⟩
  obtain ⟨hs1, hl1⟩ := hcan k1 hp1
  obtain ⟨hs2, hl2⟩ := hcan k2 hp2
  obtain ⟨hs3, hl3⟩ := hcan k3 hp3
  obtain ⟨hs4, hl4⟩ := hcan k4 hp4
  have hguard : ¬ ((HierarchyLookup.build es).get_canonical k1 = "" ∨ k1 = "não identificado" ∨
      k1 = "nao identificado") := by
    push_neg
    refine ⟨?_, hb1, hb2⟩
    intro hcon
    apply hk1
    rw [← hl1, hcon]
    rfl
  unfold validate_row
  simp only [hsrc, Bool.true_eq_false, if_false, hs1, hs2, hs3, hs4, hl1, hl2, hl3, hl4]
  rw [if_neg hguard, if_pos hmem]
  unfold apply_canonical
  rfl

/-- Witness for C8 on the concrete single-entry taxonomy. -/
theorem C8_cascade_idempotent_witness :
    ("mro", "tubulações", "aço", "tubo industrial") ∈
      (HierarchyLookup.build [⟨"MRO", "Tubulações", "Aço", "Tubo Industrial"⟩]).valid_paths ∧
    validate_row fuzzyNone
        (HierarchyLookup.build [⟨"MRO", "Tubulações", "Aço", "Tubo Industrial"⟩])
        ⟨(HierarchyLookup.build [⟨"MRO", "Tubulações", "Aço", "Tubo Industrial"⟩]).get_canonical
            "mro",
          (HierarchyLookup.build [⟨"MRO", "Tubulações", "Aço", "Tubo Industrial"⟩]).get_canonical
            "tubulações",
          (HierarchyLookup.build [⟨"MRO", "Tubulações", "Aço", "Tubo Industrial"⟩]).get_canonical
            "aço",
          (HierarchyLookup.build [⟨"MRO", "Tubulações", "Aço", "Tubo Industrial"⟩]).get_canonical
            "tubo industrial", "LLM"⟩ =
      (⟨(HierarchyLookup.build [⟨"MRO", "Tubulações", "Aço", "Tubo Industrial"⟩]).get_canonical
            "mro",
          (HierarchyLookup.build [⟨"MRO", "Tubulações", "Aço", "Tubo Industrial"⟩]).get_canonical
            "tubulações",
          (HierarchyLookup.build [⟨"MRO", "Tubulações", "Aço", "Tubo Industrial"⟩]).get_canonical
            "aço",
          (HierarchyLookup.build [⟨"MRO", "Tubulações", "Aço", "Tubo Industrial"⟩]).get_canonical
            "tubo industrial", "LLM"⟩, Step.exact) :=
  ⟨by decide,
    C8_cascade_idempotent [⟨"MRO", "Tubulações", "Aço", "Tubo Industrial"⟩] fuzzyNone "LLM"
      "mro" "tubulações" "aço" "tubo industrial" (by decide) (by decide) (by decide)
      (by decide) (by decide)⟩

end Spend

namespace Spend

theorem updateEntry_skip (e : Entry) (he : pyStrip e.N4 = "") (lk : HierarchyLookup) :
    updateEntry lk e = lk := by
  simp only [updateEntry]
  rw [if_pos he]

theorem foldl_updateEntry_filter (l : List Entry) :
    ∀ lk : HierarchyLookup,
      l.foldl updateEntry lk =
        (l.filter fun e => pyStrip e.N4 ≠ "").foldl updateEntry lk := by
  induction l with
  | nil => intro lk; rfl
  | cons e l ih =>
    intro lk
    by_cases he : pyStrip e.N4 ≠ ""
    · rw [List.filter_cons_of_pos (by simpa using he)]
      exact ih (updateEntry lk e)
    · rw [List.filter_cons_of_neg (by simpa using he)]
      push_neg at he
      rw [List.foldl_cons, updateEntry_skip e he]
      exact ih lk

/-- All keys of every derived structure of a lookup are lower-cased. -/
def KeysLC (lk : HierarchyLookup) : Prop :=
  (∀ x ∈ lk.valid_n1s, pyLower x = x) ∧
  (∀ x ∈ lk.valid_n2s, pyLower x = x) ∧
  (∀ x ∈ lk.valid_n3s, pyLower x = x) ∧
  (∀ x ∈ lk.valid_n4s, pyLower x = x) ∧
  (∀ k, lk.n2_to_n1 k ≠ [] → pyLower k = k) ∧
  (∀ k, lk.n3_to_n1n2 k ≠ [] → pyLower k = k) ∧
  (∀ k, lk.n4_to_paths k ≠ [] → pyLower k = k) ∧
  (∀ k, lk.n1n2_to_n3s k ≠ [] → pyLower k.1 = k.1 ∧ pyLower k.2 = k.2) ∧
  (∀ k, lk.n1n2n3_to_n4s k ≠ [] →
    pyLower k.1 = k.1 ∧ pyLower k.2.1 = k.2.1 ∧ pyLower k.2.2 = k.2.2) ∧
  (∀ k v, lk.canonical_case k = some v → pyLower k = k)

theorem mem_addSet_lower {l : List String} {w : String}
    (hl : ∀ x ∈ l, pyLower x = x) (hw : pyLower w = w) :
    ∀ x ∈ addSet l w, pyLower x = x := by
  intro x hx
  rcases mem_addSet.mp hx with h | rfl
  · exact hl x h
  · exact hw

theorem upd_ne_default [DecidableEq κ] (f : κ → List β) (key : κ) (val : List β) (k : κ)
    (h : upd f key val k ≠ []) : k = key ∨ f k ≠ [] := by
  unfold upd at h
  by_cases hk : k = key
  · exact Or.inl hk
  · rw [if_neg hk] at h
    exact Or.inr h

theorem updCC_key_spec (f : String → Option String) (w : String)
    (hf : ∀ k v, f k = some v → pyLower k = k) :
    ∀ k v, updCC f w k = some v → pyLower k = k := by
  intro k v h
  unfold updCC upd at h
  by_cases hk : k = pyLower w
  · rw [hk]
    exact pyLower_idem w
  · rw [if_neg hk] at h
    exact hf k v h

theorem updateEntry_keysLC (lk : HierarchyLookup) (e : Entry) (h : KeysLC lk) :
    KeysLC (updateEntry lk e) := by
  by_cases h4 : pyStrip e.N4 = ""
  · rw [updateEntry_skip e h4]
    exact h
  · obtain ⟨h1, h2, h3, h4s, hm2, hm3, hm4, hp23, hp34, hcc⟩ := h
    have hred : updateEntry lk e =
        { valid_paths := addSet lk.valid_paths (pyLower (pyStrip e.N1), pyLower (pyStrip e.N2),
            pyLower (pyStrip e.N3), pyLower (pyStrip e.N4)),
          valid_n1s := addSet lk.valid_n1s (pyLower (pyStrip e.N1)),
          valid_n2s := addSet lk.valid_n2s (pyLower (pyStrip e.N2)),
          valid_n3s := addSet lk.valid_n3s (pyLower (pyStrip e.N3)),
          valid_n4s := addSet lk.valid_n4s (pyLower (pyStrip e.N4)),
          n2_to_n1 := upd lk.n2_to_n1 (pyLower (pyStrip e.N2))
            (addSet (lk.n2_to_n1 (pyLower (pyStrip e.N2))) (pyLower (pyStrip e.N1))),
          n3_to_n1n2 := upd lk.n3_to_n1n2 (pyLower (pyStrip e.N3))
            (addSet (lk.n3_to_n1n2 (pyLower (pyStrip e.N3)))
              (pyLower (pyStrip e.N1), pyLower (pyStrip e.N2))),
          n4_to_paths := upd lk.n4_to_paths (pyLower (pyStrip e.N4))
            (lk.n4_to_paths (pyLower (pyStrip e.N4)) ++
              [(pyLower (pyStrip e.N1), pyLower (pyStrip e.N2), pyLower (pyStrip e.N3))]),
          n1n2_to_n3s := upd lk.n1n2_to_n3s (pyLower (pyStrip e.N1), pyLower (pyStrip e.N2))
            (addSet (lk.n1n2_to_n3s (pyLower (pyStrip e.N1), pyLower (pyStrip e.N2)))
              (pyLower (pyStrip e.N3))),
          n1n2n3_to_n4s := upd lk.n1n2n3_to_n4s
            (pyLower (pyStrip e.N1), pyLower (pyStrip e.N2), pyLower (pyStrip e.N3))
            (addSet (lk.n1n2n3_to_n4s
                (pyLower (pyStrip e.N1), pyLower (pyStrip e.N2), pyLower (pyStrip e.N3)))
              (pyLower (pyStrip e.N4))),
          canonical_case := updCC (updCC (updCC (updCC lk.canonical_case (pyStrip e.N1))
            (pyStrip e.N2)) (pyStrip e.N3)) (pyStrip e.N4) } := by
      simp only [updateEntry]
      rw [if_neg h4]
    refine ⟨?_, ?_, ?_, ?_, ?_, ?_, ?_, ?_, ?_, ?_⟩
    all_goals rw [hred]
    · exact mem_addSet_lower h1 (pyLower_idem _)
    · exact mem_addSet_lower h2 (pyLower_idem _)
    · exact mem_addSet_lower h3 (pyLower_idem _)
    · exact mem_addSet_lower h4s (pyLower_idem _)
    · intro k hk
      rcases upd_ne_default _ _ _ _ hk with rfl | hk'
      · exact pyLower_idem _
      · exact hm2 k hk'
    · intro k hk
      rcases upd_ne_default _ _ _ _ hk with rfl | hk'
      · exact pyLower_idem _
      · exact hm3 k hk'
    · intro k hk
      rcases upd_ne_default _ _ _ _ hk with rfl | hk'
      · exact pyLower_idem _
      · exact hm4 k hk'
    · intro k hk
      rcases upd_ne_default _ _ _ _ hk with rfl | hk'
      · exact ⟨pyLower_idem _, pyLower_idem _⟩
      · exact hp23 k hk'
    · intro k hk
      rcases upd_ne_default _ _ _ _ hk with rfl | hk'
      · exact ⟨pyLower_idem _, pyLower_idem _, pyLower_idem _⟩
      · exact hp34 k hk'
    · exact updCC_key_spec _ _ (updCC_key_spec _ _ (updCC_key_spec _ _
        (updCC_key_spec _ _ hcc)))

theorem build_keysLC (es : List Entry) : KeysLC (HierarchyLookup.build es) := by
  unfold HierarchyLookup.build
  have aux : ∀ (l : List Entry) (lk : HierarchyLookup), KeysLC lk →
      KeysLC (l.foldl updateEntry lk) := by
    intro l
    induction l with
    | nil => exact fun lk h => h
    | cons e l ih => exact fun lk h => ih (updateEntry lk e) (updateEntry_keysLC lk e h)
  refine aux es HierarchyLookup.empty ?_
  refine ⟨?_, ?_, ?_, ?_, ?_, ?_, ?_, ?_, ?_, ?_⟩ <;>
    simp [HierarchyLookup.empty]

/-- C10: an entry whose `N4` is empty after trimming contributes nothing to
the lookup (building from the taxonomy equals building from the taxonomy
with such entries removed); consequently no valid path has an empty leaf;
the stored path components are lower-cased and so are the keys of every
derived structure. -/
theorem C10_lookup_invariants (es : List Entry) :
    HierarchyLookup.build es =
      HierarchyLookup.build (es.filter fun e => pyStrip e.N4 ≠ "") ∧
    (∀ p ∈ (HierarchyLookup.build es).valid_paths, p.2.2.2 ≠ "") ∧
    (∀ p ∈ (HierarchyLookup.build es).valid_paths,
      pyLower p.1 = p.1 ∧ pyLower p.2.1 = p.2.1 ∧ pyLower p.2.2.1 = p.2.2.1 ∧
        pyLower p.2.2.2 = p.2.2.2) ∧
    KeysLC (HierarchyLookup.build es) := by
  refine ⟨?_, ?_, ?_, build_keysLC es⟩
  · unfold HierarchyLookup.build
    exact foldl_updateEntry_filter es HierarchyLookup.empty
  · intro p hp
    exact (valid_paths_build_spec es p hp).2.2.2.2
  · intro p hp
    obtain ⟨q1, q2, q3, q4, _⟩ := valid_paths_build_spec es p hp
    exact ⟨q1.1, q2.1, q3.1, q4.1⟩

end Spend

namespace Spend

theorem dictWinners_ne_positives {desc_norm : String} {d : DictData}
    (h : dictWinners desc_norm d ≠ []) : dictPositives desc_norm d ≠ [] := by
  intro hcon
  apply h
  unfold dictWinners
  rw [hcon]
  rfl

/-- C4 (amended): a tie of two or more categories at the highest positive
dictionary score yields an Ambiguous outcome whose per-level fields are
`resolve_level` of the tied categories' values at that level: a single
distinct non-empty value is **kept**, several distinct values are joined with
`" | "` (not blanked), and a level with only empty values stays empty. -/
theorem C4_dictionary_tie (normText : String → String) (desc_norm : String) (d : DictData)
    (w1 w2 : String × ℕ × List String) (ws : List (String × ℕ × List String))
    (hdesc : desc_norm ≠ "")
    (hw : dictWinners desc_norm d = w1 :: w2 :: ws) :
    (match_n4_without_priority normText desc_norm d).match_type = "Ambíguo" ∧
    (match_n4_without_priority normText desc_norm d).match_score = dictMaxScore desc_norm d ∧
    (match_n4_without_priority normText desc_norm d).taxonomy =
      some ⟨resolve_level (winnerVals d (w1 :: w2 :: ws) "N1"),
        resolve_level (winnerVals d (w1 :: w2 :: ws) "N2"),
        resolve_level (winnerVals d (w1 :: w2 :: ws) "N3"),
        resolve_level (winnerVals d (w1 :: w2 :: ws) "N4")⟩ ∧
    (∀ (vs : List String) (v : String), pyDedup (vs.filter fun x => x ≠ "") = [v] →
      resolve_level vs = v) ∧
    (∀ (vs : List String) (a b : String) (rest : List String),
      pyDedup (vs.filter fun x => x ≠ "") = a :: b :: rest →
      resolve_level vs = String.intercalate " | " (a :: b :: rest)) := by
  have hpos : dictPositives desc_norm d ≠ [] := by
    apply dictWinners_ne_positives
    rw [hw]
    exact List.cons_ne_nil _ _
  have hred : match_n4_without_priority normText desc_norm d =
      ⟨some ⟨resolve_level (winnerVals d (dictWinners desc_norm d) "N1"),
          resolve_level (winnerVals d (dictWinners desc_norm d) "N2"),
          resolve_level (winnerVals d (dictWinners desc_norm d) "N3"),
          resolve_level (winnerVals d (dictWinners desc_norm d) "N4")⟩,
        "Ambíguo",
        dedupByNorm normText
          ((dictWinners desc_norm d).foldl (fun acc w => acc ++ w.2.2) []),
        dictMaxScore desc_norm d⟩ := by
    unfold match_n4_without_priority
    rw [if_neg hdesc, if_neg hpos, hw]
  rw [hred, hw]
  refine ⟨rfl, rfl, rfl, ?_, ?_⟩
  · intro vs v hv
    unfold resolve_level
    rw [hv]
  · intro vs a b rest hv
    unfold resolve_level
    rw [hv]

/-- C4 counterexample to the claim as stated: two categories tie with N1
values `"A"` and `"B"`; the claim says the N1 field is blanked, but the code
sets it to the joined string `"A | B"`. -/
theorem C4_counterexample :
    (match_n4_without_priority id "z"
        ⟨[("x", [fun _ => true]), ("y", [fun _ => true])], fun _ => ["t"],
          fun n4 => if n4 = "x" then some ⟨"A", "S", "T", "x"⟩
            else if n4 = "y" then some ⟨"B", "S", "T", "y"⟩ else none⟩).match_type
      = "Ambíguo" ∧
    (match_n4_without_priority id "z"
        ⟨[("x", [fun _ => true]), ("y", [fun _ => true])], fun _ => ["t"],
          fun n4 => if n4 = "x" then some ⟨"A", "S", "T", "x"⟩
            else if n4 = "y" then some ⟨"B", "S", "T", "y"⟩ else none⟩).taxonomy
      = some ⟨"A | B", "S", "T", "x | y"⟩ ∧
    ("A | B" : String) ≠ "" := by
  refine ⟨by decide, by decide, by decide⟩

/-- Witness for C4 on the same two-way tie. -/
theorem C4_dictionary_tie_witness :
    ("z" : String) ≠ "" ∧
    dictWinners "z"
        ⟨[("x", [fun _ => true]), ("y", [fun _ => true])], fun _ => ["t"],
          fun n4 => if n4 = "x" then some ⟨"A", "S", "T", "x"⟩
            else if n4 = "y" then some ⟨"B", "S", "T", "y"⟩ else none⟩
      = [("x", 1, ["t"]), ("y", 1, ["t"])] ∧
    (match_n4_without_priority id "z"
        ⟨[("x", [fun _ => true]), ("y", [fun _ => true])], fun _ => ["t"],
          fun n4 => if n4 = "x" then some ⟨"A", "S", "T", "x"⟩
            else if n4 = "y" then some ⟨"B", "S", "T", "y"⟩ else none⟩).match_type
      = "Ambíguo" := by
  refine ⟨by decide, by decide, ?_⟩
  exact (C4_dictionary_tie id "z"
    ⟨[("x", [fun _ => true]), ("y", [fun _ => true])], fun _ => ["t"],
      fun n4 => if n4 = "x" then some ⟨"A", "S", "T", "x"⟩
        else if n4 = "y" then some ⟨"B", "S", "T", "y"⟩ else none⟩
    ("x", 1, ["t"]) ("y", 1, ["t"]) [] (by decide) (by decide)).1

end Spend

namespace Spend

/-- C1 (amended): when LLM use is enabled and a custom taxonomy is present,
the chunk processor's taxonomy reconciliation is the simple per-leaf mapping
`pass4_row` (exact → normalized → fuzzy → substring on the custom
hierarchy's N4 keys), applied to **every** row of the chunk after the local
and batch-LLM passes — and `pass4_row` skips exactly the rows that are not
`"Único"` or have an empty `N4`, regardless of their classification source.
(The §4.5 cascade `validate_and_correct` is never invoked by
`process_dataframe_chunk`.) -/
theorem C1_chunk_processor_mapping (sector : String) (dicts : DictData)
    (normText : String → String) (mlOf : String → Option MLResult)
    (llmOf : String → List LLMRes) (llmBatch : List String → Option (List LLMRes))
    (ch : List (String × Entry)) (fuzzy : String → List String → Option String)
    (normMatch : String → String) (df_chunk : List ChunkItem) (hch : ch ≠ []) :
    process_dataframe_chunk sector dicts normText mlOf llmOf llmBatch ch fuzzy normMatch
        true df_chunk =
      (process_dataframe_chunk sector dicts normText mlOf llmOf llmBatch [] fuzzy normMatch
          true df_chunk).map
        (pass4_row fuzzy normMatch ch (ch.map fun p => p.1)
          ((ch.map fun p => p.1).foldl (fun m k => dictInsert m (normMatch k) k) [])) ∧
    (∀ r : CRow, (r.status ≠ "Único" ∨ r.N4 = "") →
      pass4_row fuzzy normMatch ch (ch.map fun p => p.1)
        ((ch.map fun p => p.1).foldl (fun m k => dictInsert m (normMatch k) k) []) r = r) := by
  constructor
  · unfold process_dataframe_chunk
    simp only [if_true]
    rw [if_pos hch, if_neg (by simp : ¬ (([] : List (String × Entry)) ≠ []))]
    simp [List.map_map]
  · intro r hr
    unfold pass4_row
    rw [if_pos hr]

/-- C1 counterexample to the claim as stated: a chunk whose single row is
classified by the model (source `"ML"`, which does not contain `"LLM"`) is
still rewritten by the chunk processor's reconciliation pass when a custom
taxonomy is present — its path and source change — so the reconciliation is
not restricted to LLM-sourced rows (and what runs is the simple leaf mapper,
not the §4.5 cascade). -/
theorem C1_counterexample :
    pyIn "LLM" "ML" = false ∧
    (process_dataframe_chunk "varejo" ⟨[], fun _ => [], fun _ => none⟩ id
        (fun _ => buildMLResult
          (fun n4 => if n4 = "Widget" then some ⟨"Cat", "Sub", "Fam"⟩ else none)
          [("Widget", mkRat 9 10)])
        (fun _ => []) (fun _ => none) [("widget", ⟨"A", "B", "C", "Widget"⟩)]
        fuzzyNone (fun s => pyStrip (pyLower s)) true [⟨"w", "w"⟩]).map
      (fun r => (r.classification_source, r.N1)) = [("Custom (via ML)", "A")] ∧
    (process_dataframe_chunk "varejo" ⟨[], fun _ => [], fun _ => none⟩ id
        (fun _ => buildMLResult
          (fun n4 => if n4 = "Widget" then some ⟨"Cat", "Sub", "Fam"⟩ else none)
          [("Widget", mkRat 9 10)])
        (fun _ => []) (fun _ => none) []
        fuzzyNone (fun s => pyStrip (pyLower s)) true [⟨"w", "w"⟩]).map
      (fun r => (r.classification_source, r.N1)) = [("ML", "Cat")] := by
  refine ⟨by decide, by decide, by decide⟩

/-- Witness for C1 at a non-empty custom taxonomy. -/
theorem C1_chunk_processor_mapping_witness :
    ([("widget", (⟨"A", "B", "C", "Widget"⟩ : Entry))] ≠ []) ∧
    process_dataframe_chunk "varejo" ⟨[], fun _ => [], fun _ => none⟩ id (fun _ => none)
        (fun _ => []) (fun _ => none) [("widget", ⟨"A", "B", "C", "Widget"⟩)] fuzzyNone
        (fun s => pyStrip (pyLower s)) true [⟨"w", "w"⟩] =
      (process_dataframe_chunk "varejo" ⟨[], fun _ => [], fun _ => none⟩ id (fun _ => none)
          (fun _ => []) (fun _ => none) [] fuzzyNone
          (fun s => pyStrip (pyLower s)) true [⟨"w", "w"⟩]).map
        (pass4_row fuzzyNone (fun s => pyStrip (pyLower s))
          [("widget", ⟨"A", "B", "C", "Widget"⟩)]
          ([("widget", (⟨"A", "B", "C", "Widget"⟩ : Entry))].map fun p => p.1)
          (([("widget", (⟨"A", "B", "C", "Widget"⟩ : Entry))].map fun p => p.1).foldl
            (fun m k => dictInsert m ((fun s => pyStrip (pyLower s)) k) k) [])) :=
  ⟨by decide,
    (C1_chunk_processor_mapping "varejo" ⟨[], fun _ => [], fun _ => none⟩ id (fun _ => none)
      (fun _ => []) (fun _ => none) [("widget", ⟨"A", "B", "C", "Widget"⟩)] fuzzyNone
      (fun s => pyStrip (pyLower s)) [⟨"w", "w"⟩] (by decide)).1⟩

end Spend
